import Mathlib

/-!
Verification of the pdftilecut document-rewriting engine (main.go).

Modelling conventions:
* Go float32/float64 arithmetic is modelled by exact rationals (ℚ);
  the spec itself states geometric properties "within floating-point
  tolerance", and every property below is exact over ℚ.
* Go strings are modelled as `List Char`; each Go regexp used by the
  code is modelled by a deterministic scanner that is equivalent to
  that particular pattern (in every pattern of the source, the
  character class at each boundary is disjoint from the literal that
  follows it, so greedy respectively lazy matching is deterministic).
* Go `int` is modelled by ℤ; `strconv` conversions keep the 64-bit
  range failure where the program can observe it (a failed conversion
  inside `extractAttrs` panics).
-/

attribute [local semireducible] Rat.mul Rat.add Rat.inv Rat.sub Rat.ofScientific

set_option maxRecDepth 80000

namespace PdfTileCut

/-! ## Constants (main.go, `const` block) -/

def ptsInInch : ℚ := 72
def mmInInch : ℚ := 25.4
def mmInCm : ℚ := 10

/-- `bleedMargin = ptsInInch * 5 / 6` (in pt from media box). -/
def bleedMargin : ℚ := ptsInInch * 5 / 6

/-- `trimMargin = ptsInInch / 6` (in pt from bleed box). -/
def trimMargin : ℚ := ptsInInch / 6

/-- `trimMarkLineWidth = 0.5` (in pt). -/
def trimMarkLineWidth : ℚ := 0.5

/-- Min page size in mm. -/
def minPageDimension : ℚ :=
  (bleedMargin + trimMargin + trimMarkLineWidth) * 2 * mmInInch / ptsInInch

/-! ## Geometry model (`rect`, `page`) -/

/-- `rect` from main.go: lower-left and upper-right corners. -/
structure rect where
  llx : ℚ
  lly : ℚ
  urx : ℚ
  ury : ℚ
deriving DecidableEq, Repr

/-- `rect.isValid` from main.go. -/
def rect.isValid (r : rect) : Bool :=
  decide (r.llx ≤ r.urx) && decide (r.lly ≤ r.ury)

/-- Closed-point membership of a rect (used to state coverage). -/
def rect.contains (r : rect) (a b : ℚ) : Prop :=
  r.llx ≤ a ∧ a ≤ r.urx ∧ r.lly ≤ b ∧ b ≤ r.ury

instance (r : rect) (a b : ℚ) : Decidable (r.contains a b) := by
  unfold rect.contains; infer_instance

/-- Open-interior membership of a rect (used to state non-overlap). -/
def rect.containsOpen (r : rect) (a b : ℚ) : Prop :=
  r.llx < a ∧ a < r.urx ∧ r.lly < b ∧ b < r.ury

instance (r : rect) (a b : ℚ) : Decidable (r.containsOpen a b) := by
  unfold rect.containsOpen; infer_instance

/-- `r` is contained in `s` (every point of `r` is a point of `s`). -/
def subRect (r s : rect) : Prop :=
  s.llx ≤ r.llx ∧ s.lly ≤ r.lly ∧ r.urx ≤ s.urx ∧ r.ury ≤ s.ury

instance (r s : rect) : Decidable (subRect r s) := by
  unfold subRect; infer_instance

/-- `page` from main.go.  Field defaults are the Go zero values that a
`page{...}` literal leaves in fields it does not mention. -/
structure page where
  id : ℤ := 0
  number : ℤ := 0
  tileX : ℤ := 0
  tileY : ℤ := 0
  mediaBox : rect := ⟨0, 0, 0, 0⟩
  cropBox : rect := ⟨0, 0, 0, 0⟩
  bleedBox : rect := ⟨0, 0, 0, 0⟩
  trimBox : rect := ⟨0, 0, 0, 0⟩
  contentIds : List ℤ := []
  parentId : ℤ := 0
  raw : List Char := []
deriving DecidableEq, Repr

/-! ## Tile geometry engine (`cutPageToTiles`) -/

/-- One tile of the grid: the `page` literal built in the inner loop of
`cutPageToTiles` for grid position `(x, y)` (the loop counters `tgx`,
`tgy` always equal `x`, `y`).  `tileW`/`tileH` here are the already
redistributed tile dimensions. -/
def tileOf (p : page) (tileW tileH bleedMargin trimMargin : ℚ) (x y : ℕ) : page :=
  let llx := p.trimBox.llx + (x : ℚ) * tileW
  let lly := p.trimBox.lly + (y : ℚ) * tileH
  let mb : rect :=
    ⟨llx - trimMargin - bleedMargin, lly - trimMargin - bleedMargin,
     llx + tileW + trimMargin + bleedMargin, lly + tileH + trimMargin + bleedMargin⟩
  { tileX := (x : ℤ)
    tileY := (y : ℤ)
    mediaBox := mb
    bleedBox := ⟨llx - trimMargin, lly - trimMargin,
                 llx + tileW + trimMargin, lly + tileH + trimMargin⟩
    trimBox := ⟨llx, lly, llx + tileW, lly + tileH⟩
    cropBox := mb
    number := p.number
    contentIds := p.contentIds
    raw := p.raw }

/-- `cutPageToTiles` from main.go.  `Int.ceil` models
`int(math.Ceil(float64(w / tw)))`, and iterating `y` over
`vTiles.toNat` models the Go `for` loop, which runs zero times when
the bound is not positive. -/
def cutPageToTiles (p : page) (tileW0 tileH0 bleedMargin trimMargin : ℚ) : List page :=
  let pageWidth := p.trimBox.urx - p.trimBox.llx
  let pageHeight := p.trimBox.ury - p.trimBox.lly
  let hTiles : ℤ := ⌈pageWidth / tileW0⌉
  let vTiles : ℤ := ⌈pageHeight / tileH0⌉
  let tileW := pageWidth / (hTiles : ℚ)
  let tileH := pageHeight / (vTiles : ℚ)
  (List.range vTiles.toNat).flatMap fun y =>
    (List.range hTiles.toNat).map fun x => tileOf p tileW tileH bleedMargin trimMargin x y

/-! ### Grid enumeration lemmas -/

/-- A double loop over a `v × h` grid, flattened row-major, is the map of
`i ↦ (i % h, i / h)` over `range (v * h)`. -/
theorem range_flatMap_map_eq {α : Type} (g : ℕ → ℕ → α) (h v : ℕ) :
    ((List.range v).flatMap fun y => (List.range h).map fun x => g x y) =
      (List.range (v * h)).map fun i => g (i % h) (i / h) := by
  rcases Nat.eq_zero_or_pos h with hz | hpos
  · subst hz
    induction v with
    | zero => simp
    | succ v ih => simp [List.range_succ, ih]
  · induction v with
    | zero => simp
    | succ v ih =>
      rw [List.range_succ, List.flatMap_append, ih, Nat.succ_mul, List.range_add,
        List.map_append, List.map_map]
      simp only [List.flatMap_cons, List.flatMap_nil, List.append_nil]
      congr 1
      apply List.map_congr_left
      intro x hx
      have hxh : x < h := List.mem_range.mp hx
      have h1 : (v * h + x) % h = x := by
        rw [Nat.mul_comm v h, Nat.mul_add_mod, Nat.mod_eq_of_lt hxh]
      have h2 : (v * h + x) / h = v := by
        rw [Nat.mul_comm v h, Nat.mul_add_div hpos, Nat.div_eq_of_lt hxh, Nat.add_zero]
      simp [Function.comp, h1, h2]

theorem cutPageToTiles_eq_map (p : page) (tw th bm tm : ℚ) :
    cutPageToTiles p tw th bm tm =
      (List.range ((⌈(p.trimBox.ury - p.trimBox.lly) / th⌉).toNat *
          (⌈(p.trimBox.urx - p.trimBox.llx) / tw⌉).toNat)).map
        fun i =>
          tileOf p
            ((p.trimBox.urx - p.trimBox.llx) / ((⌈(p.trimBox.urx - p.trimBox.llx) / tw⌉ : ℤ) : ℚ))
            ((p.trimBox.ury - p.trimBox.lly) / ((⌈(p.trimBox.ury - p.trimBox.lly) / th⌉ : ℤ) : ℚ))
            bm tm
            (i % (⌈(p.trimBox.urx - p.trimBox.llx) / tw⌉).toNat)
            (i / (⌈(p.trimBox.urx - p.trimBox.llx) / tw⌉).toNat) := by
  unfold cutPageToTiles
  exact range_flatMap_map_eq _ _ _

theorem mem_cutPageToTiles {p : page} {tw th bm tm : ℚ} {t : page} :
    t ∈ cutPageToTiles p tw th bm tm ↔
      ∃ y < (⌈(p.trimBox.ury - p.trimBox.lly) / th⌉).toNat,
        ∃ x < (⌈(p.trimBox.urx - p.trimBox.llx) / tw⌉).toNat,
          t = tileOf p
              ((p.trimBox.urx - p.trimBox.llx) / ((⌈(p.trimBox.urx - p.trimBox.llx) / tw⌉ : ℤ) : ℚ))
              ((p.trimBox.ury - p.trimBox.lly) / ((⌈(p.trimBox.ury - p.trimBox.lly) / th⌉ : ℤ) : ℚ))
              bm tm x y := by
  unfold cutPageToTiles
  simp only [List.mem_flatMap, List.mem_map, List.mem_range]
  constructor
  · rintro ⟨y, hy, x, hx, rfl⟩
    exact ⟨y, hy, x, hx, rfl⟩
  · rintro ⟨y, hy, x, hx, rfl⟩
    exact ⟨y, hy, x, hx, rfl⟩

/-- The spec's scenario page: trim box 600×900 pt. -/
def p600 : page := { trimBox := ⟨0, 0, 600, 900⟩ }

/-! ## Claim C1 -/

/-- **C1.**  For every page with a valid trim box and positive tile
targets, `cutPageToTiles` produces `hTiles * vTiles` tiles with
`hTiles = ⌈pageWidth / tileW⌉`, `vTiles = ⌈pageHeight / tileH⌉`
computed from the original trim box, and every produced tile's trim box
is exactly `pageWidth / hTiles` wide and `pageHeight / vTiles` high:
all tiles are identical in size, never a ragged partial tile. -/
theorem cutPageToTiles_counts_uniform (p : page) (tw th bm tm : ℚ)
    (htw : 0 < tw) (hth : 0 < th) (hv : p.trimBox.isValid = true) :
    ((cutPageToTiles p tw th bm tm).length : ℤ) =
        ⌈(p.trimBox.urx - p.trimBox.llx) / tw⌉ * ⌈(p.trimBox.ury - p.trimBox.lly) / th⌉ ∧
      ∀ t ∈ cutPageToTiles p tw th bm tm,
        t.trimBox.urx - t.trimBox.llx =
            (p.trimBox.urx - p.trimBox.llx) / ((⌈(p.trimBox.urx - p.trimBox.llx) / tw⌉ : ℤ) : ℚ) ∧
          t.trimBox.ury - t.trimBox.lly =
            (p.trimBox.ury - p.trimBox.lly) / ((⌈(p.trimBox.ury - p.trimBox.lly) / th⌉ : ℤ) : ℚ) := by
  have hw : (0 : ℚ) ≤ p.trimBox.urx - p.trimBox.llx := by
    have := (Bool.and_eq_true _ _).mp hv
    have h1 := of_decide_eq_true this.1
    linarith
  have hh : (0 : ℚ) ≤ p.trimBox.ury - p.trimBox.lly := by
    have := (Bool.and_eq_true _ _).mp hv
    have h2 := of_decide_eq_true this.2
    linarith
  have hcw : (0 : ℤ) ≤ ⌈(p.trimBox.urx - p.trimBox.llx) / tw⌉ :=
    Int.ceil_nonneg (div_nonneg hw htw.le)
  have hch : (0 : ℤ) ≤ ⌈(p.trimBox.ury - p.trimBox.lly) / th⌉ :=
    Int.ceil_nonneg (div_nonneg hh hth.le)
  constructor
  · rw [cutPageToTiles_eq_map, List.length_map, List.length_range]
    push_cast [Int.toNat_of_nonneg hcw, Int.toNat_of_nonneg hch]
    ring
  · intro t ht
    rcases mem_cutPageToTiles.mp ht with ⟨y, hy, x, hx, rfl⟩
    constructor
    · show p.trimBox.llx + (x : ℚ) * _ + _ - (p.trimBox.llx + (x : ℚ) * _) = _
      ring
    · show p.trimBox.lly + (y : ℚ) * _ + _ - (p.trimBox.lly + (y : ℚ) * _) = _
      ring

/-- **C1 witness** (the spec scenario): a page with trim box 600×900 pt
and tile target 560×810 pt yields `hTiles = 2`, `vTiles = 2`, four
tiles, each 300×450 pt. -/
theorem cutPageToTiles_counts_uniform_witness :
    ((cutPageToTiles p600 560 810 bleedMargin trimMargin).length : ℤ) =
        ⌈(600 : ℚ) / 560⌉ * ⌈(900 : ℚ) / 810⌉ ∧
      (cutPageToTiles p600 560 810 bleedMargin trimMargin).length = 4 ∧
      ∀ t ∈ cutPageToTiles p600 560 810 bleedMargin trimMargin,
        t.trimBox.urx - t.trimBox.llx = 300 ∧ t.trimBox.ury - t.trimBox.lly = 450 := by
  have h := cutPageToTiles_counts_uniform p600 560 810
    bleedMargin trimMargin (by norm_num) (by norm_num) (by decide)
  refine ⟨by simpa using h.1, by decide, ?_⟩
  intro t ht
  obtain ⟨e1, e2⟩ := h.2 t ht
  constructor
  · rw [e1]; decide
  · rw [e2]; decide

/-! ## Claim C3 -/

/-- **C3.**  Every tile produced by `cutPageToTiles` has: trim box
`[llx, lly, llx+W, lly+H]` anchored at
`llx = pageTrim.llx + tileX·W`, `lly = pageTrim.lly + tileY·H` (where
`W`, `H` are the redistributed tile dimensions), bleed box = trim box
expanded outward by `trimMargin` on all four sides, media box = bleed
box expanded by `bleedMargin`, crop box = media box; and with
nonnegative margins `mediaBox ⊇ bleedBox ⊇ trimBox`. -/
theorem tile_boxes_anchored_nested (p : page) (tw th bm tm : ℚ) (t : page)
    (ht : t ∈ cutPageToTiles p tw th bm tm) :
    let W := (p.trimBox.urx - p.trimBox.llx) / ((⌈(p.trimBox.urx - p.trimBox.llx) / tw⌉ : ℤ) : ℚ)
    let H := (p.trimBox.ury - p.trimBox.lly) / ((⌈(p.trimBox.ury - p.trimBox.lly) / th⌉ : ℤ) : ℚ)
    t.trimBox.llx = p.trimBox.llx + (t.tileX : ℚ) * W ∧
      t.trimBox.lly = p.trimBox.lly + (t.tileY : ℚ) * H ∧
      t.trimBox.urx = t.trimBox.llx + W ∧
      t.trimBox.ury = t.trimBox.lly + H ∧
      t.bleedBox = ⟨t.trimBox.llx - tm, t.trimBox.lly - tm,
                    t.trimBox.urx + tm, t.trimBox.ury + tm⟩ ∧
      t.mediaBox = ⟨t.bleedBox.llx - bm, t.bleedBox.lly - bm,
                    t.bleedBox.urx + bm, t.bleedBox.ury + bm⟩ ∧
      t.cropBox = t.mediaBox ∧
      (0 ≤ tm → subRect t.trimBox t.bleedBox) ∧
      (0 ≤ tm → 0 ≤ bm → subRect t.bleedBox t.mediaBox) := by
  rcases mem_cutPageToTiles.mp ht with ⟨y, hy, x, hx, rfl⟩
  refine ⟨by simp [tileOf], by simp [tileOf], by simp [tileOf], by simp [tileOf],
    by simp [tileOf], by simp [tileOf], by simp [tileOf], ?_, ?_⟩
  · intro htm
    simp only [tileOf, subRect]
    refine ⟨by linarith, by linarith, by linarith, by linarith⟩
  · intro htm hbm
    simp only [tileOf, subRect]
    refine ⟨by linarith, by linarith, by linarith, by linarith⟩

/-- **C3 witness**: the top-right tile of the 600×900 / 560×810 scenario
satisfies the anchoring and nesting properties. -/
theorem tile_boxes_anchored_nested_witness :
    (tileOf p600 300 450 bleedMargin trimMargin 1 1 ∈
        cutPageToTiles p600 560 810 bleedMargin trimMargin) ∧
      (tileOf p600 300 450 bleedMargin
          trimMargin 1 1).cropBox =
        (tileOf p600 300 450 bleedMargin
          trimMargin 1 1).mediaBox := by
  have hmem : tileOf p600 300 450 bleedMargin trimMargin 1 1 ∈
      cutPageToTiles p600 560 810 bleedMargin trimMargin := by
    decide
  have h := tile_boxes_anchored_nested p600 560 810
    bleedMargin trimMargin _ hmem
  exact ⟨hmem, h.2.2.2.2.2.2.1⟩

/-! ## Claim C2 -/

/-- 1-D cover: with a positive cell width `W` and at least one cell, the
interval `[L, L + n·W]` is exactly the union of the `n` cells
`[L + x·W, L + (x+1)·W]`. -/
theorem interval_cover (L W : ℚ) (n : ℕ) (hW : 0 < W) (hn : 0 < n) (a : ℚ) :
    (L ≤ a ∧ a ≤ L + n * W) ↔ ∃ x, x < n ∧ L + x * W ≤ a ∧ a ≤ L + (x + 1) * W := by
  constructor
  · rintro ⟨h1, h2⟩
    have hk0 : 0 ≤ ⌊(a - L) / W⌋ := Int.floor_nonneg.mpr (div_nonneg (by linarith) hW.le)
    by_cases hc : (⌊(a - L) / W⌋).toNat < n
    · refine ⟨(⌊(a - L) / W⌋).toNat, hc, ?_, ?_⟩
      · have hfl : ((⌊(a - L) / W⌋ : ℤ) : ℚ) ≤ (a - L) / W := Int.floor_le _
        have hkW : ((⌊(a - L) / W⌋ : ℤ) : ℚ) * W ≤ a - L := (le_div_iff₀ hW).mp hfl
        have hcst : (((⌊(a - L) / W⌋).toNat : ℕ) : ℚ) = ((⌊(a - L) / W⌋ : ℤ) : ℚ) := by
          exact_mod_cast congrArg (fun z : ℤ => (z : ℚ)) (Int.toNat_of_nonneg hk0)
        rw [hcst]
        linarith
      · have hfl : (a - L) / W < (⌊(a - L) / W⌋ : ℚ) + 1 := Int.lt_floor_add_one _
        have hkW : a - L < ((⌊(a - L) / W⌋ : ℚ) + 1) * W := (div_lt_iff₀ hW).mp hfl
        have hcst : (((⌊(a - L) / W⌋).toNat : ℕ) : ℚ) = ((⌊(a - L) / W⌋ : ℤ) : ℚ) := by
          exact_mod_cast congrArg (fun z : ℤ => (z : ℚ)) (Int.toNat_of_nonneg hk0)
        rw [hcst]
        linarith
    · have hnk : (n : ℤ) ≤ ⌊(a - L) / W⌋ := by omega
      have h3 : ((n : ℤ) : ℚ) ≤ (a - L) / W := le_trans (by exact_mod_cast hnk) (Int.floor_le _)
      have h4 : ((n : ℕ) : ℚ) * W ≤ a - L := by
        have := (le_div_iff₀ hW).mp h3
        exact_mod_cast this
      refine ⟨n - 1, by omega, ?_, ?_⟩
      · have hcst : (((n - 1 : ℕ)) : ℚ) = ((n : ℕ) : ℚ) - 1 := by
          have : (1 : ℕ) ≤ n := hn
          push_cast [Nat.cast_sub this]
          ring
        rw [hcst]
        have hexp : (((n : ℕ) : ℚ) - 1) * W = ((n : ℕ) : ℚ) * W - W := by ring
        rw [hexp]
        linarith
      · have hcst : (((n - 1 : ℕ)) : ℚ) + 1 = ((n : ℕ) : ℚ) := by
          have : (1 : ℕ) ≤ n := hn
          push_cast [Nat.cast_sub this]
          ring
        rw [hcst]
        linarith
  · rintro ⟨x, hxn, hl, hr⟩
    have hx0 : (0 : ℚ) ≤ (x : ℚ) * W := mul_nonneg (by positivity) hW.le
    have hxn2 : ((x : ℕ) : ℚ) + 1 ≤ ((n : ℕ) : ℚ) := by exact_mod_cast hxn
    have : ((x : ℚ) + 1) * W ≤ ((n : ℕ) : ℚ) * W := mul_le_mul_of_nonneg_right hxn2 hW.le
    exact ⟨by linarith, by linarith⟩

/-- 1-D disjointness: the open cells `(L + x·W, L + (x+1)·W)` of a grid
with positive cell width are pairwise disjoint. -/
theorem interval_disjoint (L W : ℚ) (hW : 0 < W) (x y : ℕ) (hxy : x ≠ y) (a : ℚ) :
    ¬((L + x * W < a ∧ a < L + (x + 1) * W) ∧ (L + y * W < a ∧ a < L + (y + 1) * W)) := by
  rintro ⟨⟨h1, h2⟩, h3, h4⟩
  rcases Nat.lt_or_ge x y with hlt | hge
  · have hc : ((x : ℕ) : ℚ) + 1 ≤ ((y : ℕ) : ℚ) := by exact_mod_cast hlt
    have := mul_le_mul_of_nonneg_right hc hW.le
    nlinarith
  · have hlt2 : y < x := lt_of_le_of_ne hge (Ne.symm hxy)
    have hc : ((y : ℕ) : ℚ) + 1 ≤ ((x : ℕ) : ℚ) := by exact_mod_cast hlt2
    have := mul_le_mul_of_nonneg_right hc hW.le
    nlinarith

/-- **C2 counterexample.**  The claim fails as stated on a degenerate
(but valid, hence extractable) page: a trim box of zero width yields
zero tiles, so the union of the produced tiles' trim boxes does not
cover the original trim box, which still contains points. -/
theorem tileCoverage_degenerate_counterexample :
    cutPageToTiles { trimBox := ⟨0, 0, 0, 900⟩ } 560 810 bleedMargin trimMargin = [] ∧
      ({ trimBox := ⟨0, 0, 0, 900⟩ } : page).trimBox.isValid = true ∧
      ({ trimBox := ⟨0, 0, 0, 900⟩ } : page).trimBox.contains 0 0 ∧
      ¬∃ t ∈ cutPageToTiles { trimBox := ⟨0, 0, 0, 900⟩ } 560 810 bleedMargin trimMargin,
          t.trimBox.contains 0 0 := by
  decide

/-- **C2 (amended).**  For pages whose trim box has positive width and
height and positive tile targets: the tiles are ordered row-major with
tile `(x, y)` at index `y·hTiles + x`; the union of all tiles' trim
boxes is exactly the original trim box (no gaps); and no two distinct
tiles' trim-box interiors overlap. -/
theorem cutPageToTiles_rowMajor_coverage (p : page) (tw th bm tm : ℚ)
    (htw : 0 < tw) (hth : 0 < th)
    (hpw : 0 < p.trimBox.urx - p.trimBox.llx) (hph : 0 < p.trimBox.ury - p.trimBox.lly) :
    (∀ x y, x < (⌈(p.trimBox.urx - p.trimBox.llx) / tw⌉).toNat →
        y < (⌈(p.trimBox.ury - p.trimBox.lly) / th⌉).toNat →
        ∃ t, (cutPageToTiles p tw th bm tm)[y * (⌈(p.trimBox.urx - p.trimBox.llx) / tw⌉).toNat + x]? =
            some t ∧ t.tileX = (x : ℤ) ∧ t.tileY = (y : ℤ)) ∧
      (∀ a b, p.trimBox.contains a b ↔
        ∃ t ∈ cutPageToTiles p tw th bm tm, t.trimBox.contains a b) ∧
      (∀ (i j : ℕ) (t u : page), (cutPageToTiles p tw th bm tm)[i]? = some t →
        (cutPageToTiles p tw th bm tm)[j]? = some u → i ≠ j →
        ∀ a b, ¬(t.trimBox.containsOpen a b ∧ u.trimBox.containsOpen a b)) := by
  have hcw : 0 < ⌈(p.trimBox.urx - p.trimBox.llx) / tw⌉ := Int.ceil_pos.mpr (div_pos hpw htw)
  have hch : 0 < ⌈(p.trimBox.ury - p.trimBox.lly) / th⌉ := Int.ceil_pos.mpr (div_pos hph hth)
  have hcwQ : (0 : ℚ) < ((⌈(p.trimBox.urx - p.trimBox.llx) / tw⌉ : ℤ) : ℚ) := by exact_mod_cast hcw
  have hchQ : (0 : ℚ) < ((⌈(p.trimBox.ury - p.trimBox.lly) / th⌉ : ℤ) : ℚ) := by exact_mod_cast hch
  have hW : 0 < (p.trimBox.urx - p.trimBox.llx) / ((⌈(p.trimBox.urx - p.trimBox.llx) / tw⌉ : ℤ) : ℚ) :=
    div_pos hpw hcwQ
  have hH : 0 < (p.trimBox.ury - p.trimBox.lly) / ((⌈(p.trimBox.ury - p.trimBox.lly) / th⌉ : ℤ) : ℚ) :=
    div_pos hph hchQ
  have hcwN : 0 < (⌈(p.trimBox.urx - p.trimBox.llx) / tw⌉).toNat := by omega
  have hchN : 0 < (⌈(p.trimBox.ury - p.trimBox.lly) / th⌉).toNat := by omega
  have hcastW : (((⌈(p.trimBox.urx - p.trimBox.llx) / tw⌉).toNat : ℕ) : ℚ) =
      ((⌈(p.trimBox.urx - p.trimBox.llx) / tw⌉ : ℤ) : ℚ) := by
    exact_mod_cast congrArg (fun z : ℤ => (z : ℚ)) (Int.toNat_of_nonneg hcw.le)
  have hcastH : (((⌈(p.trimBox.ury - p.trimBox.lly) / th⌉).toNat : ℕ) : ℚ) =
      ((⌈(p.trimBox.ury - p.trimBox.lly) / th⌉ : ℤ) : ℚ) := by
    exact_mod_cast congrArg (fun z : ℤ => (z : ℚ)) (Int.toNat_of_nonneg hch.le)
  have htotW : (((⌈(p.trimBox.urx - p.trimBox.llx) / tw⌉).toNat : ℕ) : ℚ) *
        ((p.trimBox.urx - p.trimBox.llx) / ((⌈(p.trimBox.urx - p.trimBox.llx) / tw⌉ : ℤ) : ℚ)) =
      p.trimBox.urx - p.trimBox.llx := by
    rw [hcastW]
    field_simp
  have htotH : (((⌈(p.trimBox.ury - p.trimBox.lly) / th⌉).toNat : ℕ) : ℚ) *
        ((p.trimBox.ury - p.trimBox.lly) / ((⌈(p.trimBox.ury - p.trimBox.lly) / th⌉ : ℤ) : ℚ)) =
      p.trimBox.ury - p.trimBox.lly := by
    rw [hcastH]
    field_simp
  refine ⟨?_, ?_, ?_⟩
  · intro x y hx hy
    have hk : y * (⌈(p.trimBox.urx - p.trimBox.llx) / tw⌉).toNat + x <
        (⌈(p.trimBox.ury - p.trimBox.lly) / th⌉).toNat *
          (⌈(p.trimBox.urx - p.trimBox.llx) / tw⌉).toNat := by
      calc y * (⌈(p.trimBox.urx - p.trimBox.llx) / tw⌉).toNat + x <
          (y + 1) * (⌈(p.trimBox.urx - p.trimBox.llx) / tw⌉).toNat := by
            rw [Nat.succ_mul]; omega
        _ ≤ _ := Nat.mul_le_mul_right _ hy
    have hmod : (y * (⌈(p.trimBox.urx - p.trimBox.llx) / tw⌉).toNat + x) %
        (⌈(p.trimBox.urx - p.trimBox.llx) / tw⌉).toNat = x := by
      rw [Nat.mul_comm y, Nat.mul_add_mod, Nat.mod_eq_of_lt hx]
    have hdiv : (y * (⌈(p.trimBox.urx - p.trimBox.llx) / tw⌉).toNat + x) /
        (⌈(p.trimBox.urx - p.trimBox.llx) / tw⌉).toNat = y := by
      rw [Nat.mul_comm y, Nat.mul_add_div hcwN, Nat.div_eq_of_lt hx, Nat.add_zero]
    rw [cutPageToTiles_eq_map]
    rw [List.getElem?_map, List.getElem?_range hk]
    exact ⟨_, rfl, by simp [tileOf, hmod], by simp [tileOf, hdiv]⟩
  · intro a b
    have hurx : p.trimBox.urx = p.trimBox.llx + (p.trimBox.urx - p.trimBox.llx) := by ring
    have hury : p.trimBox.ury = p.trimBox.lly + (p.trimBox.ury - p.trimBox.lly) := by ring
    constructor
    · rintro ⟨c1, c2, c3, c4⟩
      have ha : p.trimBox.llx ≤ a ∧ a ≤ p.trimBox.llx +
          (((⌈(p.trimBox.urx - p.trimBox.llx) / tw⌉).toNat : ℕ) : ℚ) *
            ((p.trimBox.urx - p.trimBox.llx) / ((⌈(p.trimBox.urx - p.trimBox.llx) / tw⌉ : ℤ) : ℚ)) := by
        rw [htotW]
        exact ⟨c1, by linarith⟩
      have hb : p.trimBox.lly ≤ b ∧ b ≤ p.trimBox.lly +
          (((⌈(p.trimBox.ury - p.trimBox.lly) / th⌉).toNat : ℕ) : ℚ) *
            ((p.trimBox.ury - p.trimBox.lly) / ((⌈(p.trimBox.ury - p.trimBox.lly) / th⌉ : ℤ) : ℚ)) := by
        rw [htotH]
        exact ⟨c3, by linarith⟩
      obtain ⟨x, hxlt, hx1, hx2⟩ := (interval_cover _ _ _ hW hcwN a).mp ha
      obtain ⟨y, hylt, hy1, hy2⟩ := (interval_cover _ _ _ hH hchN b).mp hb
      refine ⟨tileOf p _ _ bm tm x y, mem_cutPageToTiles.mpr ⟨y, hylt, x, hxlt, rfl⟩, ?_⟩
      refine ⟨by simpa [tileOf] using hx1, ?_, by simpa [tileOf] using hy1, ?_⟩
      · show p.trimBox.llx + (x : ℚ) * _ + _ ≥ a
        have hexp : p.trimBox.llx + ((x : ℕ) : ℚ) *
              ((p.trimBox.urx - p.trimBox.llx) / ((⌈(p.trimBox.urx - p.trimBox.llx) / tw⌉ : ℤ) : ℚ)) +
              (p.trimBox.urx - p.trimBox.llx) / ((⌈(p.trimBox.urx - p.trimBox.llx) / tw⌉ : ℤ) : ℚ) =
            p.trimBox.llx + (((x : ℕ) : ℚ) + 1) *
              ((p.trimBox.urx - p.trimBox.llx) / ((⌈(p.trimBox.urx - p.trimBox.llx) / tw⌉ : ℤ) : ℚ)) := by
          ring
        show a ≤ _
        rw [hexp]
        exact hx2
      · show b ≤ p.trimBox.lly + (y : ℚ) * _ + _
        have hexp : p.trimBox.lly + ((y : ℕ) : ℚ) *
              ((p.trimBox.ury - p.trimBox.lly) / ((⌈(p.trimBox.ury - p.trimBox.lly) / th⌉ : ℤ) : ℚ)) +
              (p.trimBox.ury - p.trimBox.lly) / ((⌈(p.trimBox.ury - p.trimBox.lly) / th⌉ : ℤ) : ℚ) =
            p.trimBox.lly + (((y : ℕ) : ℚ) + 1) *
              ((p.trimBox.ury - p.trimBox.lly) / ((⌈(p.trimBox.ury - p.trimBox.lly) / th⌉ : ℤ) : ℚ)) := by
          ring
        rw [hexp]
        exact hy2
    · rintro ⟨t, ht, c1, c2, c3, c4⟩
      obtain ⟨y, hylt, x, hxlt, rfl⟩ := mem_cutPageToTiles.mp ht
      simp only [tileOf] at c1 c2 c3 c4
      have ha : p.trimBox.llx ≤ a ∧ a ≤ p.trimBox.llx +
          (((⌈(p.trimBox.urx - p.trimBox.llx) / tw⌉).toNat : ℕ) : ℚ) *
            ((p.trimBox.urx - p.trimBox.llx) / ((⌈(p.trimBox.urx - p.trimBox.llx) / tw⌉ : ℤ) : ℚ)) := by
        refine (interval_cover _ _ _ hW hcwN a).mpr ⟨x, hxlt, by linarith, ?_⟩
        have hexp : p.trimBox.llx + (((x : ℕ) : ℚ) + 1) *
              ((p.trimBox.urx - p.trimBox.llx) / ((⌈(p.trimBox.urx - p.trimBox.llx) / tw⌉ : ℤ) : ℚ)) =
            p.trimBox.llx + ((x : ℕ) : ℚ) *
              ((p.trimBox.urx - p.trimBox.llx) / ((⌈(p.trimBox.urx - p.trimBox.llx) / tw⌉ : ℤ) : ℚ)) +
              (p.trimBox.urx - p.trimBox.llx) / ((⌈(p.trimBox.urx - p.trimBox.llx) / tw⌉ : ℤ) : ℚ) := by
          ring
        rw [hexp]
        exact c2
      have hb : p.trimBox.lly ≤ b ∧ b ≤ p.trimBox.lly +
          (((⌈(p.trimBox.ury - p.trimBox.lly) / th⌉).toNat : ℕ) : ℚ) *
            ((p.trimBox.ury - p.trimBox.lly) / ((⌈(p.trimBox.ury - p.trimBox.lly) / th⌉ : ℤ) : ℚ)) := by
        refine (interval_cover _ _ _ hH hchN b).mpr ⟨y, hylt, by linarith, ?_⟩
        have hexp : p.trimBox.lly + (((y : ℕ) : ℚ) + 1) *
              ((p.trimBox.ury - p.trimBox.lly) / ((⌈(p.trimBox.ury - p.trimBox.lly) / th⌉ : ℤ) : ℚ)) =
            p.trimBox.lly + ((y : ℕ) : ℚ) *
              ((p.trimBox.ury - p.trimBox.lly) / ((⌈(p.trimBox.ury - p.trimBox.lly) / th⌉ : ℤ) : ℚ)) +
              (p.trimBox.ury - p.trimBox.lly) / ((⌈(p.trimBox.ury - p.trimBox.lly) / th⌉ : ℤ) : ℚ) := by
          ring
        rw [hexp]
        exact c4
      rw [htotW] at ha
      rw [htotH] at hb
      exact ⟨ha.1, by rw [hurx]; linarith [ha.2], hb.1, by rw [hury]; linarith [hb.2]⟩
  · intro i j t u hti htj hij a b hcontra
    rw [cutPageToTiles_eq_map] at hti htj
    by_cases hilt : i < (⌈(p.trimBox.ury - p.trimBox.lly) / th⌉).toNat *
        (⌈(p.trimBox.urx - p.trimBox.llx) / tw⌉).toNat
    · by_cases hjlt : j < (⌈(p.trimBox.ury - p.trimBox.lly) / th⌉).toNat *
          (⌈(p.trimBox.urx - p.trimBox.llx) / tw⌉).toNat
      · rw [List.getElem?_map, List.getElem?_range hilt] at hti
        rw [List.getElem?_map, List.getElem?_range hjlt] at htj
        simp only [Option.map_some', Option.some.injEq] at hti htj
        subst hti
        subst htj
        obtain ⟨⟨d1, d2, d3, d4⟩, e1, e2, e3, e4⟩ := hcontra
        simp only [tileOf] at d1 d2 d3 d4 e1 e2 e3 e4
        by_cases hmod : i % (⌈(p.trimBox.urx - p.trimBox.llx) / tw⌉).toNat =
            j % (⌈(p.trimBox.urx - p.trimBox.llx) / tw⌉).toNat
        · have hdiv : i / (⌈(p.trimBox.urx - p.trimBox.llx) / tw⌉).toNat ≠
              j / (⌈(p.trimBox.urx - p.trimBox.llx) / tw⌉).toNat := by
            intro hd
            apply hij
            rw [← Nat.div_add_mod i ((⌈(p.trimBox.urx - p.trimBox.llx) / tw⌉).toNat),
              ← Nat.div_add_mod j ((⌈(p.trimBox.urx - p.trimBox.llx) / tw⌉).toNat), hmod, hd]
          refine interval_disjoint p.trimBox.lly _ hH _ _ hdiv b ⟨⟨d3, ?_⟩, e3, ?_⟩
          · have hexp : p.trimBox.lly +
                (((i / (⌈(p.trimBox.urx - p.trimBox.llx) / tw⌉).toNat : ℕ) : ℚ) + 1) *
                  ((p.trimBox.ury - p.trimBox.lly) / ((⌈(p.trimBox.ury - p.trimBox.lly) / th⌉ : ℤ) : ℚ)) =
                p.trimBox.lly + ((i / (⌈(p.trimBox.urx - p.trimBox.llx) / tw⌉).toNat : ℕ) : ℚ) *
                  ((p.trimBox.ury - p.trimBox.lly) / ((⌈(p.trimBox.ury - p.trimBox.lly) / th⌉ : ℤ) : ℚ)) +
                  (p.trimBox.ury - p.trimBox.lly) / ((⌈(p.trimBox.ury - p.trimBox.lly) / th⌉ : ℤ) : ℚ) := by
              ring
            rw [hexp]
            exact d4
          · have hexp : p.trimBox.lly +
                (((j / (⌈(p.trimBox.urx - p.trimBox.llx) / tw⌉).toNat : ℕ) : ℚ) + 1) *
                  ((p.trimBox.ury - p.trimBox.lly) / ((⌈(p.trimBox.ury - p.trimBox.lly) / th⌉ : ℤ) : ℚ)) =
                p.trimBox.lly + ((j / (⌈(p.trimBox.urx - p.trimBox.llx) / tw⌉).toNat : ℕ) : ℚ) *
                  ((p.trimBox.ury - p.trimBox.lly) / ((⌈(p.trimBox.ury - p.trimBox.lly) / th⌉ : ℤ) : ℚ)) +
                  (p.trimBox.ury - p.trimBox.lly) / ((⌈(p.trimBox.ury - p.trimBox.lly) / th⌉ : ℤ) : ℚ) := by
              ring
            rw [hexp]
            exact e4
        · refine interval_disjoint p.trimBox.llx _ hW _ _ hmod a ⟨⟨d1, ?_⟩, e1, ?_⟩
          · have hexp : p.trimBox.llx +
                (((i % (⌈(p.trimBox.urx - p.trimBox.llx) / tw⌉).toNat : ℕ) : ℚ) + 1) *
                  ((p.trimBox.urx - p.trimBox.llx) / ((⌈(p.trimBox.urx - p.trimBox.llx) / tw⌉ : ℤ) : ℚ)) =
                p.trimBox.llx + ((i % (⌈(p.trimBox.urx - p.trimBox.llx) / tw⌉).toNat : ℕ) : ℚ) *
                  ((p.trimBox.urx - p.trimBox.llx) / ((⌈(p.trimBox.urx - p.trimBox.llx) / tw⌉ : ℤ) : ℚ)) +
                  (p.trimBox.urx - p.trimBox.llx) / ((⌈(p.trimBox.urx - p.trimBox.llx) / tw⌉ : ℤ) : ℚ) := by
              ring
            rw [hexp]
            exact d2
          · have hexp : p.trimBox.llx +
                (((j % (⌈(p.trimBox.urx - p.trimBox.llx) / tw⌉).toNat : ℕ) : ℚ) + 1) *
                  ((p.trimBox.urx - p.trimBox.llx) / ((⌈(p.trimBox.urx - p.trimBox.llx) / tw⌉ : ℤ) : ℚ)) =
                p.trimBox.llx + ((j % (⌈(p.trimBox.urx - p.trimBox.llx) / tw⌉).toNat : ℕ) : ℚ) *
                  ((p.trimBox.urx - p.trimBox.llx) / ((⌈(p.trimBox.urx - p.trimBox.llx) / tw⌉ : ℤ) : ℚ)) +
                  (p.trimBox.urx - p.trimBox.llx) / ((⌈(p.trimBox.urx - p.trimBox.llx) / tw⌉ : ℤ) : ℚ) := by
              ring
            rw [hexp]
            exact e2
      · rw [List.getElem?_map, List.getElem?_eq_none (by simpa using Nat.le_of_not_lt hjlt)] at htj
        simp at htj
    · rw [List.getElem?_map, List.getElem?_eq_none (by simpa using Nat.le_of_not_lt hilt)] at hti
      simp at hti

/-- **C2 witness**: in the 600×900 / 560×810 scenario, the tile at
row-major index `1·2 + 1 = 3` is tile `(1, 1)`, and the point
`(450, 600)` is covered by some tile. -/
theorem cutPageToTiles_rowMajor_coverage_witness :
    (∃ t, (cutPageToTiles p600 560 810 bleedMargin trimMargin)[3]? = some t ∧
        t.tileX = 1 ∧ t.tileY = 1) ∧
      (∃ t ∈ cutPageToTiles p600 560 810 bleedMargin trimMargin, t.trimBox.contains 450 600) := by
  have h := cutPageToTiles_rowMajor_coverage p600 560 810 bleedMargin trimMargin
    (by norm_num) (by norm_num) (by decide) (by decide)
  constructor
  · have h1 := h.1 1 1 (by decide) (by decide)
    have hidx : 1 * (⌈(p600.trimBox.urx - p600.trimBox.llx) / 560⌉).toNat + 1 = 3 := by decide
    rwa [hidx] at h1
  · exact (h.2.1 450 600).mp (by decide)

/-! ## `numToAlpha` and the tile reference labels (C8) -/

/-- Character for digit `d` in Go's `strconv` digit alphabet `0-9a-z`. -/
def goDigitChar (d : ℕ) : Char := if d < 10 then Char.ofNat (48 + d) else Char.ofNat (87 + d)

/-- Base-`b` digit expansion as characters, most significant digit
first.  Fuel-based so that it reduces in the kernel; any `fuel > n`
computes the full expansion when `b ≥ 2`. -/
def natToBaseChars (b : ℕ) : ℕ → ℕ → List Char
  | 0, _ => []
  | f + 1, n =>
    if n < b then [goDigitChar n] else natToBaseChars b f (n / b) ++ [goDigitChar (n % b)]

/-- `strconv.FormatInt(n, b)`. -/
def goFormatInt (n : ℤ) (b : ℕ) : List Char :=
  if n < 0 then '-' :: natToBaseChars b (n.natAbs + 1) n.natAbs
  else natToBaseChars b (n.toNat + 1) n.toNat

/-- `strconv.Itoa(n)`. -/
def goItoa (n : ℤ) : List Char := goFormatInt n 10

/-- The per-byte transform inside `numToAlpha`: `c < 'a'` maps digit
characters to `A`–`J`, and `a`–`p` map to `K`–`Z`. -/
def alphaMap (c : Char) : Char :=
  if c < 'a' then Char.ofNat (65 + (c.toNat - 48)) else Char.ofNat (75 + (c.toNat - 97))

/-- `numToAlpha` from main.go: `strconv.FormatInt(n, 26)` with every
byte shifted into `A`–`Z` by `alphaMap`. -/
def numToAlpha (n : ℤ) : List Char := (goFormatInt n 26).map alphaMap

/-- The row label drawn by `createOverlayForPage` (main.go line 437). -/
def tileRowLabel (p : page) : List Char := numToAlpha p.tileY

/-- The column label drawn by `createOverlayForPage` (main.go line 438). -/
def tileColLabel (p : page) : List Char := goItoa (p.tileX + 1)

/-- Value of a base-26 letter string with digit set `A`–`Z`, `A` = 0. -/
def alphaVal (s : List Char) : ℕ := s.foldl (fun a c => 26 * a + (c.toNat - 65)) 0

/-- Value of a decimal digit string. -/
def decVal (s : List Char) : ℕ := s.foldl (fun a c => 10 * a + (c.toNat - 48)) 0

theorem alphaMap_goDigitChar : ∀ d < 26, (alphaMap (goDigitChar d)).toNat = 65 + d := by decide

theorem alphaVal_natToBaseChars (f n : ℕ) (hf : n < f) :
    alphaVal ((natToBaseChars 26 f n).map alphaMap) = n := by
  induction f generalizing n with
  | zero => omega
  | succ f ih =>
    rw [natToBaseChars]
    by_cases h : n < 26
    · rw [if_pos h]
      have := alphaMap_goDigitChar n h
      simp only [List.map_cons, List.map_nil, alphaVal, List.foldl_cons, List.foldl_nil]
      omega
    · rw [if_neg h, List.map_append, alphaVal, List.foldl_append]
      have hdl : n / 26 < n := Nat.div_lt_self (by omega) (by norm_num)
      have ih2 := ih (n / 26) (by omega)
      rw [alphaVal] at ih2
      rw [ih2]
      have := alphaMap_goDigitChar (n % 26) (Nat.mod_lt _ (by norm_num))
      simp only [List.map_cons, List.map_nil, List.foldl_cons, List.foldl_nil]
      omega

theorem decVal_natToBaseChars (f n : ℕ) (hf : n < f) :
    decVal (natToBaseChars 10 f n) = n := by
  have hdig : ∀ d < 10, (goDigitChar d).toNat = 48 + d := by decide
  induction f generalizing n with
  | zero => omega
  | succ f ih =>
    rw [natToBaseChars]
    by_cases h : n < 10
    · rw [if_pos h]
      have := hdig n h
      simp only [decVal, List.foldl_cons, List.foldl_nil]
      omega
    · rw [if_neg h, decVal, List.foldl_append]
      have hdl : n / 10 < n := Nat.div_lt_self (by omega) (by norm_num)
      have ih2 := ih (n / 10) (by omega)
      rw [decVal] at ih2
      rw [ih2]
      have := hdig (n % 10) (Nat.mod_lt _ (by norm_num))
      simp only [List.foldl_cons, List.foldl_nil]
      omega

/-- **C8 counterexample.**  The row label of row 26 is `"BA"`, not
`"AA"`: `numToAlpha` is a plain positional base-26 encoding with `A` as
the zero digit (sequence A, …, Z, BA, BB, …), not the spec's
A, …, Z, AA, … sequence. -/
theorem numToAlpha_26_not_AA :
    tileRowLabel { tileY := 26 } = ['B', 'A'] ∧ tileRowLabel { tileY := 26 } ≠ ['A', 'A'] := by
  decide

/-- **C8 (amended).**  The row label is `numToAlpha tileY`, a positional
base-26 encoding with digit set `A`–`Z` (`A` = 0): rows 0–25 map to the
single letters A–Z, row 26 maps to `"BA"`, and the encoding decodes
back to the row index; the column label is the 1-based decimal encoding
`Itoa (tileX + 1)`, which also decodes back. -/
theorem tile_labels_base26 :
    (∀ p : page, tileRowLabel p = numToAlpha p.tileY ∧ tileColLabel p = goItoa (p.tileX + 1)) ∧
      (∀ n : ℕ, n < 26 → numToAlpha (n : ℤ) = [Char.ofNat (65 + n)]) ∧
      numToAlpha 26 = ['B', 'A'] ∧
      (∀ n : ℕ, alphaVal (numToAlpha (n : ℤ)) = n) ∧
      (∀ n : ℕ, decVal (goItoa (n : ℤ)) = n) := by
  refine ⟨fun p => ⟨rfl, rfl⟩, by decide, by decide, ?_, ?_⟩
  · intro n
    unfold numToAlpha goFormatInt
    rw [if_neg (by exact_mod_cast Int.not_lt.mpr (Int.natCast_nonneg n))]
    rw [Int.toNat_natCast]
    exact alphaVal_natToBaseChars (n + 1) n (Nat.lt_succ_self n)
  · intro n
    unfold goItoa goFormatInt
    rw [if_neg (by exact_mod_cast Int.not_lt.mpr (Int.natCast_nonneg n))]
    rw [Int.toNat_natCast]
    exact decVal_natToBaseChars (n + 1) n (Nat.lt_succ_self n)

/-- **C8 witness**: row 25 is labelled `Z`, the base-26 label of row 26
decodes back to 26, and the decimal column encoding round-trips. -/
theorem tile_labels_base26_witness :
    numToAlpha (25 : ℤ) = ['Z'] ∧ alphaVal (numToAlpha ((26 : ℕ) : ℤ)) = 26 ∧
      decVal (goItoa ((7 : ℕ) : ℤ)) = 7 := by
  have h := tile_labels_base26
  exact ⟨by simpa using h.2.1 25 (by norm_num), h.2.2.2.1 26, h.2.2.2.2 7⟩

/-! ## Scanner infrastructure for the source's regexps

Each regexp used by main.go is modelled by a deterministic scanner.
In every one of those patterns, the character class at each boundary is
disjoint from the literal that follows it, so Go's leftmost-first
matching coincides with the maximal-munch scanners below. -/

/-- RE2 `\s`, i.e. `[\t\n\f\r ]`. -/
def isGoSpace (c : Char) : Bool :=
  c = ' ' || c = '\t' || c = '\n' || c = '\x0c' || c = '\r'

/-- RE2 `\d`. -/
def isDigitCh (c : Char) : Bool := '0' ≤ c && c ≤ '9'

/-- The class `[\d.]`. -/
def isDigitDot (c : Char) : Bool := isDigitCh c || c = '.'

/-- Greedy `p+`: one or more class characters, returning the matched
run and the remainder. -/
def many1 (p : Char → Bool) (l : List Char) : Option (List Char × List Char) :=
  match l.span p with
  | ([], _) => none
  | (a, r) => some (a, r)

/-- A literal, returning the remainder. -/
def lit (pat l : List Char) : Option (List Char) :=
  if pat.isPrefixOf l then some (l.drop pat.length) else none

/-- `-?[\d.]+`, capturing the matched text (sign included). -/
def numTok : List Char → Option (List Char × List Char)
  | '-' :: r => (many1 isDigitDot r).map fun q => ('-' :: q.1, q.2)
  | l => many1 isDigitDot l

/-- Try an anchored matcher at every position following a newline, left
to right (the tail of a `(?m)^...` search). -/
def findFromLineStarts {α : Type} (m : List Char → Option α) : List Char → Option α
  | [] => none
  | c :: r =>
    if c = '\n' then
      match m r with
      | some a => some a
      | none => findFromLineStarts m r
    else findFromLineStarts m r

/-- Leftmost `(?m)^...` match: try position 0, then after every
newline. -/
def findMultiline {α : Type} (m : List Char → Option α) (l : List Char) : Option α :=
  match m l with
  | some a => some a
  | none => findFromLineStarts m l

/-- All non-overlapping `(?m)^...` matches, scanning left to right and
continuing after each match (`FindAllStringSubmatch`).  Only used with
matchers whose matched text ends in a non-newline character, so the
position after a match is never a line start.  Fuel `≥ length + 1`
suffices: every step consumes at least one character. -/
def findAllMatches {α : Type} (m : List Char → Option (α × List Char)) :
    ℕ → Bool → List Char → List α
  | 0, _, _ => []
  | f + 1, atStart, l =>
    match (if atStart then m l else none) with
    | some (a, rest) => a :: findAllMatches m f false rest
    | none =>
      match l with
      | [] => []
      | c :: r => findAllMatches m f (c = '\n') r

/-! ## Numeric conversions (`strconv`) -/

/-- `strconv.Atoi` on an all-digit capture: fails (range error) when
the value exceeds the 64-bit host int. -/
def goAtoi (ds : List Char) : Option ℤ :=
  if ds = [] then none
  else if decVal ds ≤ 9223372036854775807 then some ((decVal ds : ℕ) : ℤ) else none

/-- `strconv.Atoi` where the Go caller ignores the error: a positive
out-of-range digit string yields the clamped maximum. -/
def goAtoiClamped (ds : List Char) : ℤ :=
  min ((decVal ds : ℕ) : ℤ) 9223372036854775807

/-- Values at or beyond this bound round to `+Inf` in float32, making
`ParseFloat(s, 32)` return a range error. -/
def float32OverflowBound : ℚ := 2 ^ 128 - 2 ^ 103

/-- `strconv.ParseFloat(s, 32)` on a string matched by `-?[\d.]+`:
succeeds iff the digits/dots body has at least one digit and at most
one dot and the value is inside float32 range.  The value is kept
exact in ℚ (the float32 rounding of a successfully parsed value is
immaterial to every property proved here). -/
def goParseFloat32 (s : List Char) : Option ℚ :=
  let neg : Bool := s.headD ' ' = '-'
  let ds := if neg then s.tail else s
  let sgn : ℚ := if neg then -1 else 1
  match ds.splitOn '.' with
  | [a] =>
    if a = [] then none
    else if ((decVal a : ℕ) : ℚ) < float32OverflowBound then some (sgn * (decVal a : ℕ)) else none
  | [a, b] =>
    if a ++ b = [] then none
    else if ((decVal (a ++ b) : ℕ) : ℚ) / (10 ^ b.length : ℚ) < float32OverflowBound then
      some (sgn * (((decVal (a ++ b) : ℕ) : ℚ) / (10 ^ b.length : ℚ)))
    else none
  | _ => none

/-! ## Page-object regexps -/

/-- Anchored matcher for `boxReTpl` instantiated at `name`:
`^\s+/name\s*\[\s*(-?[\d.]+)\s+(-?[\d.]+)\s+(-?[\d.]+)\s+(-?[\d.]+)\s*\]`. -/
def boxAt (name : List Char) (l : List Char) :
    Option (List Char × List Char × List Char × List Char) := do
  let (_, r) ← many1 isGoSpace l
  let r ← lit ('/' :: name) r
  let r := (r.span isGoSpace).2
  let r ← lit ['['] r
  let r := (r.span isGoSpace).2
  let (c1, r) ← numTok r
  let (_, r) ← many1 isGoSpace r
  let (c2, r) ← numTok r
  let (_, r) ← many1 isGoSpace r
  let (c3, r) ← numTok r
  let (_, r) ← many1 isGoSpace r
  let (c4, r) ← numTok r
  let r := (r.span isGoSpace).2
  let _ ← lit [']'] r
  some (c1, c2, c3, c4)

/-- `FindStringSubmatch` of a box regexp over a page body. -/
def boxFind (name : List Char) (raw : List Char) :
    Option (List Char × List Char × List Char × List Char) :=
  findMultiline (boxAt name) raw

/-- Result of `contentsRe`: either the single-reference capture (group
1) or the bracket-list capture (group 2). -/
inductive ContentsMatch where
  | single (ds : List Char)
  | listBody (b : List Char)
deriving DecidableEq, Repr

/-- Anchored matcher for `contentsRe`:
`^\s+/Contents\s+(?:(\d+)|\[([^\]]*))` (alternation tried in order). -/
def contentsAt (l : List Char) : Option ContentsMatch := do
  let (_, r) ← many1 isGoSpace l
  let r ← lit ("/Contents".data) r
  let (_, r) ← many1 isGoSpace r
  match many1 isDigitCh r with
  | some (ds, _) => some (ContentsMatch.single ds)
  | none =>
    match r with
    | '[' :: rest => some (ContentsMatch.listBody (rest.span (fun c => !(c = ']'))).1)
    | _ => none

def contentsFind (raw : List Char) : Option ContentsMatch := findMultiline contentsAt raw

/-- Anchored matcher for the inner list regexp `^\s+(\d+)\s+\d+\s+R`. -/
def innerRefAt (l : List Char) : Option (List Char × List Char) := do
  let (_, r) ← many1 isGoSpace l
  let (d, r) ← many1 isDigitCh r
  let (_, r) ← many1 isGoSpace r
  let (_, r) ← many1 isDigitCh r
  let (_, r) ← many1 isGoSpace r
  let r ← lit ['R'] r
  some (d, r)

/-- The content ids extracted from a `contentsRe` match; `none` models
the `atoi` panic. -/
def contentIdsOf (cm : ContentsMatch) : Option (List ℤ) :=
  match cm with
  | .single ds => (goAtoi ds).map fun i => [i]
  | .listBody b => (findAllMatches innerRefAt (b.length + 1) true b).mapM goAtoi

/-- The four box captures parsed by `atof`; `none` models the panic. -/
def parseBox4 (c : List Char × List Char × List Char × List Char) : Option rect := do
  let a ← goParseFloat32 c.1
  let b ← goParseFloat32 c.2.1
  let d ← goParseFloat32 c.2.2.1
  let e ← goParseFloat32 c.2.2.2
  some ⟨a, b, d, e⟩

/-- One optional-box step of `extractAttrs`: absent boxes take the
default, present boxes are parsed (`none` models the `atof` panic). -/
def resolveBox (name : List Char) (raw : List Char) (dflt : rect) : Option rect :=
  match boxFind name raw with
  | none => some dflt
  | some c => parseBox4 c

/-! ## `pageObjRmRe` (removal of the extracted raw attributes) -/

/-- The name alternation `((Bleed|Crop|Media|Trim|Art)Box|Contents|Parent)`,
tried in Go's order. -/
def rmName (r : List Char) : Option (List Char) :=
  lit ("BleedBox".data) r <|> lit ("CropBox".data) r <|> lit ("MediaBox".data) r <|>
    lit ("TrimBox".data) r <|> lit ("ArtBox".data) r <|> lit ("Contents".data) r <|>
    lit ("Parent".data) r

/-- The value alternation `(\[[^\]]+\]|\d+\s+\d+\s+R)`. -/
def rmVal (r : List Char) : Option (List Char) :=
  match r with
  | '[' :: rest =>
    match rest.span (fun c => !(c = ']')) with
    | ([], _) => none
    | (_, rest2) => lit [']'] rest2
  | _ => do
    let (_, r1) ← many1 isDigitCh r
    let (_, r2) ← many1 isGoSpace r1
    let (_, r3) ← many1 isDigitCh r2
    let (_, r4) ← many1 isGoSpace r3
    lit ['R'] r4

/-- Anchored matcher for `pageObjRmRe`, returning the remainder after
the matched text (which is deleted). -/
def rmAt (l : List Char) : Option (List Char) := do
  let (_, r) ← many1 isGoSpace l
  let r ← lit ['/'] r
  let r ← rmName r
  let (_, r) ← many1 isGoSpace r
  let r ← rmVal r
  lit ['\n'] r

/-- `ReplaceAllString(..., "")` driver for `rmAt`.  Matches of this
pattern end with a newline, so the position after a match is again a
line start. -/
def removeAllMatches (m : List Char → Option (List Char)) : ℕ → Bool → List Char → List Char
  | 0, _, l => l
  | f + 1, atStart, l =>
    match (if atStart then m l else none) with
    | some rest => removeAllMatches m f true rest
    | none =>
      match l with
      | [] => []
      | c :: r => c :: removeAllMatches m f (c = '\n') r

/-- `p.raw = pageObjRmRe.ReplaceAllString(p.raw, "")`. -/
def removeExtracted (raw : List Char) : List Char :=
  removeAllMatches rmAt (raw.length + 1) true raw

/-! ## `extractAttrs` -/

inductive ExtractErr where
  | noContents
  | noMediaBox
  | invalidMediaBox
  | invalidCropBox
  | invalidBleedBox
  | invalidTrimBox
deriving DecidableEq, Repr

inductive ExtractRes where
  | ok (p : page)
  | err (e : ExtractErr)
  | panicked
deriving DecidableEq, Repr

/-- `(*page).extractAttrs` from main.go.  `.err` models the returned
errors (which the caller logs, skipping the page); `.panicked` models
the `panic` inside the `atoi`/`atof` helpers, reached when a
regex-matched numeric substring fails to convert. -/
def extractAttrs (number : ℤ) (raw0 : List Char) : ExtractRes :=
  match contentsFind raw0 with
  | none => .err .noContents
  | some cm =>
    match contentIdsOf cm with
    | none => .panicked
    | some cids =>
      match boxFind ("MediaBox".data) raw0 with
      | none => .err .noMediaBox
      | some c =>
        match parseBox4 c with
        | none => .panicked
        | some mb =>
          if mb.isValid = false then .err .invalidMediaBox
          else
            match resolveBox ("CropBox".data) raw0 mb with
            | none => .panicked
            | some cb =>
              if cb.isValid = false then .err .invalidCropBox
              else
                match resolveBox ("BleedBox".data) raw0 cb with
                | none => .panicked
                | some bb =>
                  if bb.isValid = false then .err .invalidBleedBox
                  else
                    match resolveBox ("TrimBox".data) raw0 cb with
                    | none => .panicked
                    | some tbx =>
                      if tbx.isValid = false then .err .invalidTrimBox
                      else
                        .ok { number := number, contentIds := cids, mediaBox := mb,
                              cropBox := cb, bleedBox := bb, trimBox := tbx,
                              raw := removeExtracted raw0 }

/-! ## `getAllPages` -/

/-- Lazy-capture search: the earliest occurrence of `term`, returning
the text before it and the remainder after it (`term` nonempty). -/
def findTerm (term : List Char) : List Char → Option (List Char × List Char)
  | [] => none
  | c :: r =>
    if term.isPrefixOf (c :: r) then some ([], (c :: r).drop term.length)
    else (findTerm term r).map fun q => (c :: q.1, q.2)

/-- Anchored matcher for `pageRe`:
`^%% Page (\d+)\n%%[^\n]*\n\d+\s+\d+\s+obj\n<<\n(.*?)\n^>>\n^endobj`,
returning ((page-number digits, body capture), remainder). -/
def pageAt (l : List Char) : Option ((List Char × List Char) × List Char) := do
  let r ← lit ("%% Page ".data) l
  let (num, r) ← many1 isDigitCh r
  let r ← lit ['\n'] r
  let r ← lit ("%%".data) r
  let r := (r.span (fun c => !(c = '\n'))).2
  let r ← lit ['\n'] r
  let (_, r) ← many1 isDigitCh r
  let (_, r) ← many1 isGoSpace r
  let (_, r) ← many1 isDigitCh r
  let (_, r) ← many1 isGoSpace r
  let r ← lit ("obj\n<<\n".data) r
  let (body, r) ← findTerm ("\n>>\nendobj".data) r
  some ((num, body), r)

def getAllPagesAux : List (List Char × List Char) → Option (List page)
  | [] => some []
  | (num, body) :: ms =>
    match extractAttrs (goAtoiClamped num) body with
    | .panicked => none
    | .err _ => getAllPagesAux ms
    | .ok p => (getAllPagesAux ms).map fun ps => p :: ps

/-- `getAllPages` from main.go: match every page object, extract its
attributes, log and skip pages whose extraction errors.  `none` models
a panic escaping from `extractAttrs` and aborting the run. -/
def getAllPages (d : List Char) : Option (List page) :=
  getAllPagesAux (findAllMatches pageAt (d.length + 1) true d)

/-! ## Characterization of successful extraction -/

theorem extractAttrs_ok_elim {n : ℤ} {raw : List Char} {p : page}
    (h : extractAttrs n raw = .ok p) :
    ∃ cm cids c mb cb bb tbx,
      contentsFind raw = some cm ∧ contentIdsOf cm = some cids ∧
        boxFind ("MediaBox".data) raw = some c ∧ parseBox4 c = some mb ∧ mb.isValid = true ∧
        resolveBox ("CropBox".data) raw mb = some cb ∧ cb.isValid = true ∧
        resolveBox ("BleedBox".data) raw cb = some bb ∧ bb.isValid = true ∧
        resolveBox ("TrimBox".data) raw cb = some tbx ∧ tbx.isValid = true ∧
        p = { number := n, contentIds := cids, mediaBox := mb, cropBox := cb,
              bleedBox := bb, trimBox := tbx, raw := removeExtracted raw } := by
  unfold extractAttrs at h
  split at h
  next => exact absurd h (by simp)
  next cm hcm =>
    split at h
    next => exact absurd h (by simp)
    next cids hcids =>
      split at h
      next => exact absurd h (by simp)
      next c hc =>
        split at h
        next => exact absurd h (by simp)
        next mb hmb =>
          split at h
          next => exact absurd h (by simp)
          next hvm =>
            split at h
            next => exact absurd h (by simp)
            next cb hcb =>
              split at h
              next => exact absurd h (by simp)
              next hvc =>
                split at h
                next => exact absurd h (by simp)
                next bb hbb =>
                  split at h
                  next => exact absurd h (by simp)
                  next hvb =>
                    split at h
                    next => exact absurd h (by simp)
                    next tbx htb =>
                      split at h
                      next => exact absurd h (by simp)
                      next hvt =>
                        refine ⟨cm, cids, c, mb, cb, bb, tbx, hcm, hcids, hc, hmb,
                          by simpa using hvm, hcb, by simpa using hvc, hbb,
                          by simpa using hvb, htb, by simpa using hvt,
                          (ExtractRes.ok.inj h).symm⟩

/-! ## Claim C9 -/

/-- Concrete body with only a content reference and a media box. -/
def body9a : List Char := ("  /Contents 3 0 R\n  /MediaBox [ 0 0 612 792 ]\n").data

/-- Concrete body that additionally carries a crop box. -/
def body9b : List Char :=
  ("  /Contents 3 0 R\n  /MediaBox [ 0 0 612 792 ]\n  /CropBox [ 5 5 600 700 ]\n").data

/-- The page extracted from `body9b`. -/
def page9b : page :=
  { number := 1, contentIds := [3], mediaBox := ⟨0, 0, 612, 792⟩,
    cropBox := ⟨5, 5, 600, 700⟩, bleedBox := ⟨5, 5, 600, 700⟩,
    trimBox := ⟨5, 5, 600, 700⟩, raw := [] }

/-- **C9.**  For every successfully extracted page body: an absent
`/CropBox` defaults the crop box to the media box; absent `/BleedBox`
and `/TrimBox` each default to the crop box; all four boxes satisfy the
rectangle invariant after defaulting.  Consequently a page with only a
media box ends with all four boxes equal, and a page with media and
crop boxes but no bleed/trim ends with bleed = trim = crop. -/
theorem box_defaulting_chain :
    (∀ (n : ℤ) (raw : List Char) (p : page), extractAttrs n raw = .ok p →
        (boxFind ("CropBox".data) raw = none → p.cropBox = p.mediaBox) ∧
          (boxFind ("BleedBox".data) raw = none → p.bleedBox = p.cropBox) ∧
          (boxFind ("TrimBox".data) raw = none → p.trimBox = p.cropBox) ∧
          p.mediaBox.isValid = true ∧ p.cropBox.isValid = true ∧
          p.bleedBox.isValid = true ∧ p.trimBox.isValid = true) ∧
      extractAttrs 1 body9a =
        .ok { number := 1, contentIds := [3], mediaBox := ⟨0, 0, 612, 792⟩,
              cropBox := ⟨0, 0, 612, 792⟩, bleedBox := ⟨0, 0, 612, 792⟩,
              trimBox := ⟨0, 0, 612, 792⟩, raw := [] } ∧
      extractAttrs 1 body9b = .ok page9b := by
  refine ⟨?_, by decide, by decide⟩
  intro n raw p h
  obtain ⟨cm, cids, c, mb, cb, bb, tbx, hcm, hcids, hc, hmb, hvm, hcb, hvc, hbb, hvb,
    htb, hvt, hp⟩ := extractAttrs_ok_elim h
  subst hp
  refine ⟨?_, ?_, ?_, hvm, hvc, hvb, hvt⟩
  · intro hnone
    unfold resolveBox at hcb
    rw [hnone] at hcb
    exact (Option.some.inj hcb).symm
  · intro hnone
    unfold resolveBox at hbb
    rw [hnone] at hbb
    exact (Option.some.inj hbb).symm
  · intro hnone
    unfold resolveBox at htb
    rw [hnone] at htb
    exact (Option.some.inj htb).symm

/-- **C9 witness**: the defaulting conclusions of the general statement
applied to the concrete body `body9b` (whose bleed box is absent and
therefore equals its crop box). -/
theorem box_defaulting_chain_witness :
    page9b.bleedBox = page9b.cropBox ∧ page9b.trimBox = page9b.cropBox :=
  ⟨(box_defaulting_chain.1 1 body9b page9b (by decide)).2.1 (by decide),
    (box_defaulting_chain.1 1 body9b page9b (by decide)).2.2.1 (by decide)⟩

/-! ## Claim C10 -/

/-- All box captures of `name` in `raw` convert without a panic. -/
def boxParseOk (name : List Char) (raw : List Char) : Bool :=
  match boxFind name raw with
  | none => true
  | some c => (parseBox4 c).isSome

/-- The contents capture of `raw` converts without a panic. -/
def contentsParseOk (raw : List Char) : Bool :=
  match contentsFind raw with
  | none => true
  | some cm => (contentIdsOf cm).isSome

theorem resolveBox_ne_none {name raw : List Char} {dflt : rect}
    (h : boxParseOk name raw = true) : resolveBox name raw dflt ≠ none := by
  intro hcontra
  unfold resolveBox at hcontra
  unfold boxParseOk at h
  cases hfind : boxFind name raw with
  | none => rw [hfind] at hcontra; simp at hcontra
  | some c =>
    rw [hfind] at hcontra h
    simp only [] at hcontra h
    rw [hcontra] at h
    simp at h

/-- Concrete body whose media box is matched by the box regexp but
carries the malformed number `1.2.3` (the class `[\d.]+` admits any
number of dots). -/
def body10 : List Char := ("  /Contents 3 0 R\n  /MediaBox [ 1.2.3 0 0 0 ]\n").data

/-- **C10 counterexample.**  A body accepted by the contents and box
regexps on which the float conversion of a matched coordinate fails:
`extractAttrs` reaches the panic branch of its `atof` helper instead of
returning a `Page` or an error. -/
theorem extractAttrs_panics_on_malformed_number :
    (boxFind ("MediaBox".data) body10).isSome = true ∧
      contentsParseOk body10 = true ∧
      extractAttrs 1 body10 = .panicked := by
  decide

/-- **C10 (amended).**  `extractAttrs` returns a `Page` or an error —
never reaching the panic branch — provided every regex-matched numeric
substring actually converts: the content-id captures fit the host int,
and each matched box coordinate is valid float syntax in range (which
`-?[\d.]+` does not guarantee: `1.2.3` is matched but panics). -/
theorem extractAttrs_no_panic_on_valid_numbers (n : ℤ) (raw : List Char)
    (hc : contentsParseOk raw = true)
    (hm : boxParseOk ("MediaBox".data) raw = true)
    (hcr : boxParseOk ("CropBox".data) raw = true)
    (hb : boxParseOk ("BleedBox".data) raw = true)
    (ht : boxParseOk ("TrimBox".data) raw = true) :
    extractAttrs n raw ≠ .panicked := by
  intro hEq
  unfold extractAttrs at hEq
  split at hEq
  next => simp at hEq
  next cm hcm =>
    split at hEq
    next hnone =>
      unfold contentsParseOk at hc
      rw [hcm] at hc
      simp [hnone] at hc
    next cids hcids =>
      split at hEq
      next => simp at hEq
      next c hfind =>
        split at hEq
        next hnone =>
          unfold boxParseOk at hm
          rw [hfind] at hm
          simp [hnone] at hm
        next mb hmb =>
          split at hEq
          next => simp at hEq
          next =>
            split at hEq
            next hnone => exact resolveBox_ne_none hcr hnone
            next cb hcb =>
              split at hEq
              next => simp at hEq
              next =>
                split at hEq
                next hnone => exact resolveBox_ne_none hb hnone
                next bb hbb =>
                  split at hEq
                  next => simp at hEq
                  next =>
                    split at hEq
                    next hnone => exact resolveBox_ne_none ht hnone
                    next tbx htb =>
                      split at hEq
                      next => simp at hEq
                      next => simp at hEq

/-- **C10 witness**: the no-panic statement applied to the concrete
well-formed body `body9a`. -/
theorem extractAttrs_no_panic_witness : extractAttrs 1 body9a ≠ .panicked :=
  extractAttrs_no_panic_on_valid_numbers 1 body9a (by decide) (by decide) (by decide)
    (by decide) (by decide)

/-! ## Formatting (`fmt`) -/

/-- `fmt.Sprintf("%f", x)`: six decimal places.  Modelled on exact
rationals with round-half-up (Go rounds the binary float value to the
nearest decimal; the difference is immaterial to every theorem below,
none of which inspects formatted digits). -/
def goFmtF (q : ℚ) : List Char :=
  let n : ℕ := (Int.floor (|q| * 1000000 + 1 / 2)).toNat
  let ip := n / 1000000
  let fp := n % 1000000
  (if q < 0 then ['-'] else []) ++ natToBaseChars 10 (ip + 1) ip ++
    '.' :: (List.replicate (6 - (natToBaseChars 10 (fp + 1) fp).length) '0' ++
      natToBaseChars 10 (fp + 1) fp)

/-- A coordinate pair `"%f %f"`. -/
def fmtPt (a b : ℚ) : List Char := goFmtF a ++ (" ".data) ++ goFmtF b

/-- One trim-mark segment `"%f %f m %f %f l S\n      "`. -/
def fmtSeg (a b c d : ℚ) : List Char :=
  fmtPt a b ++ (" m ".data) ++ fmtPt c d ++ (" l S\n      ".data)

/-- One box line of `marshal`: `"  /Name [ %f %f %f %f ]\n"`. -/
def fmtBoxLine (name : List Char) (r : rect) : List Char :=
  ("  /".data) ++ name ++ (" [ ".data) ++ fmtPt r.llx r.lly ++ (" ".data) ++
    fmtPt r.urx r.ury ++ (" ]\n".data)

/-- `(*page).marshal` from main.go. -/
def marshal (p : page) : List Char :=
  ("\n".data) ++ goItoa p.id ++ (" 0 obj\n<<\n".data) ++
    fmtBoxLine ("MediaBox".data) p.mediaBox ++
    fmtBoxLine ("CropBox".data) p.cropBox ++
    fmtBoxLine ("BleedBox".data) p.bleedBox ++
    fmtBoxLine ("TrimBox".data) p.trimBox ++
    ("  /Contents [ ".data) ++
    (p.contentIds.flatMap fun cid => (" ".data) ++ goItoa cid ++ (" 0 R ".data)) ++
    (" ]\n".data) ++
    ("  /Parent ".data) ++ goItoa p.parentId ++ (" 0 R\n".data) ++
    p.raw ++ ("\n>>\nendobj\n".data)

/-! ## Overlay generation (`createOverlayForPage`)

The vector font and logo live in source files of this repository that
are not under src/; those pieces are modelled from the spec. -/

/-- Modelled from the spec: `vecCharHeight`, the fixed character height
of the built-in vector font (its file is absent from src/; the spec
fixes only that it is a constant). -/
def vecCharHeight : ℚ := 10

/-- Modelled from the spec: `strToVecChars` of the vector-character
renderer (its file is absent from src/).  It renders a label string as
axis-aligned drawing commands for the given direction pair; the exact
per-glyph segment data is unspecified, so the model emits a
deterministic placeholder carrying the label and the direction pair. -/
def strToVecChars (s : List Char) (hd vd : ℚ) : List Char :=
  ("% vec ".data) ++ goFmtF hd ++ (" ".data) ++ goFmtF vd ++ (" ".data) ++ s ++ (" %".data)

/-- Modelled from the spec: `logoDim`, the logo glyph's design size
(its file is absent from src/). -/
def logoDim : ℚ := 100

/-- Modelled from the spec: `logoGSCmds`, the logo's drawing commands
(its file is absent from src/). -/
def logoGSCmds : List Char := ("% logo %").data

/-- The package-level flag values that `createOverlayForPage` and
`process` read (`*longTrimMarks`, `*hideLogo`, `*tileTitle`, and the
parsed `tileSize` in millimeters), passed explicitly in this model. -/
structure Config where
  longTrimMarks : Bool
  hideLogo : Bool
  tileTitle : List Char
  tileSizeW : ℚ
  tileSizeH : ℚ
deriving Repr

/-- `createOverlayForPage` from main.go: builds the overlay stream
(opaque margin, trim marks, tile/page labels, title, logo), appends the
overlay id to the page's content ids, and returns the serialized
overlay object.  Whitespace inside the command templates follows the
source's raw string literals up to indentation bytes, which no theorem
below inspects. -/
def createOverlayForPage (cfg : Config) (overlayId : ℤ) (p : page) : List Char × page :=
  let mb := p.mediaBox
  let bb := p.bleedBox
  let tb := p.trimBox
  let vch := vecCharHeight
  let s1 :=
    (" q\n    1 1 1 rg ".data) ++
      fmtPt (mb.llx - 1) (mb.lly - 1) ++ (" m ".data) ++
      fmtPt (mb.llx - 1) (mb.ury + 1) ++ (" l ".data) ++
      fmtPt (mb.urx + 1) (mb.ury + 1) ++ (" l ".data) ++
      fmtPt (mb.urx + 1) (mb.lly - 1) ++ (" l h\n    ".data) ++
      fmtPt bb.llx bb.lly ++ (" m ".data) ++
      fmtPt bb.urx bb.lly ++ (" l ".data) ++
      fmtPt bb.urx bb.ury ++ (" l ".data) ++
      fmtPt bb.llx bb.ury ++ (" l h f\n  Q ".data)
  let marks :=
    if !cfg.longTrimMarks then
      (" q\n    0 0 0 rg ".data) ++ goFmtF trimMarkLineWidth ++ (" w\n      ".data) ++
        fmtSeg (mb.llx - 1) tb.lly bb.llx tb.lly ++
        fmtSeg (mb.llx - 1) tb.ury bb.llx tb.ury ++
        fmtSeg tb.llx (mb.ury + 1) tb.llx bb.ury ++
        fmtSeg tb.urx (mb.ury + 1) tb.urx bb.ury ++
        fmtSeg bb.urx tb.ury (mb.urx + 1) tb.ury ++
        fmtSeg bb.urx tb.lly (mb.urx + 1) tb.lly ++
        fmtSeg tb.llx bb.lly tb.llx (mb.lly - 1) ++
        fmtSeg tb.urx bb.lly tb.urx (mb.lly - 1) ++
        ("    Q ".data)
    else
      (" q\n    0 0 0 rg ".data) ++ goFmtF trimMarkLineWidth ++ (" w\n      ".data) ++
        fmtSeg (mb.llx - 1) tb.lly (mb.urx + 1) tb.lly ++
        fmtSeg (mb.llx - 1) tb.ury (mb.urx + 1) tb.ury ++
        fmtSeg tb.llx (mb.lly - 1) tb.llx (mb.ury + 1) ++
        fmtSeg tb.urx (mb.lly - 1) tb.urx (mb.ury + 1) ++
        ("    Q ".data)
  let tileRef :=
    ("\n    q 0 0 0 rg\n      q 1 0 0 1 ".data) ++ fmtPt bb.urx (bb.ury + vch / 2) ++
      (" cm ".data) ++ strToVecChars (tileRowLabel p) (-1) 1 ++ (" Q\n      q 1 0 0 1 ".data) ++
      fmtPt (bb.urx + vch / 2) bb.ury ++ (" cm ".data) ++
      strToVecChars (tileColLabel p) 1 (-1) ++ (" Q\n    Q\n    q\n      0 0 0 rg ".data) ++
      goFmtF trimMarkLineWidth ++ (" w 2 J\n      ".data) ++
      fmtSeg (bb.urx + vch / 2) (bb.ury + vch / 2) (bb.urx + vch / 2) (bb.ury + vch * 1.5) ++
      fmtSeg (bb.urx + vch / 2) (bb.ury + vch / 2) (bb.urx + vch * 1.5) (bb.ury + vch / 2) ++
      fmtPt (bb.urx + vch / 4) (bb.ury + vch * 1.5) ++ (" m ".data) ++
      fmtPt (bb.urx + vch * 3 / 4) (bb.ury + vch * 1.5) ++ (" l ".data) ++
      fmtPt (bb.urx + vch / 2) (bb.ury + vch * 2) ++ (" l h f\n      ".data) ++
      fmtPt (bb.urx + vch * 1.5) (bb.ury + vch / 4) ++ (" m ".data) ++
      fmtPt (bb.urx + vch * 1.5) (bb.ury + vch * 3 / 4) ++ (" l ".data) ++
      fmtPt (bb.urx + vch * 2) (bb.ury + vch / 2) ++ (" l h f\n    Q\n  ".data)
  let pageRef :=
    (" q 0 0 0 rg\n    q 1 0 0 1 ".data) ++ fmtPt (tb.llx - vch / 2) (bb.ury + vch / 2) ++
      (" cm ".data) ++ strToVecChars (goItoa p.number) (-1) 1 ++ (" Q\n    q 1 0 0 1 ".data) ++
      fmtPt (bb.llx - vch / 2) bb.ury ++ (" cm ".data) ++
      strToVecChars (("PAGE").data) (-1) (-1) ++ (" Q\n  Q ".data)
  let title :=
    (" q 0 0 0 rg q 1 0 0 1 ".data) ++ fmtPt (tb.llx + vch / 2) (bb.lly - vch / 2) ++
      (" cm ".data) ++ strToVecChars cfg.tileTitle 1 (-1) ++ (" Q Q ".data)
  let logo :=
    if !cfg.hideLogo then
      let logoScale := (trimMargin + bleedMargin) / (4 * logoDim)
      let logoScaledSize := logoDim * logoScale
      (" q 0 0 0 rg q 1 0 0 1 ".data) ++
        fmtPt (bb.llx - logoScaledSize) (bb.lly - logoScaledSize) ++ (" cm q ".data) ++
        goFmtF logoScale ++ (" 0 0 ".data) ++ goFmtF logoScale ++ (" 0 0 cm ".data) ++
        logoGSCmds ++ (" Q Q Q ".data)
    else []
  let stream := s1 ++ marks ++ tileRef ++ pageRef ++ title ++ logo
  (goItoa overlayId ++ (" 0 obj\n<< /Length ".data) ++ goItoa stream.length ++
      (" >> stream\n".data) ++ stream ++ ("endstream\nendobj\n".data),
    { p with contentIds := p.contentIds ++ [overlayId] })

/-! ## Document splicing -/

/-- `strings.Replace(l, pat, new, 1)`. -/
def listReplaceFirst (pat new : List Char) : List Char → List Char
  | [] => if pat.isPrefixOf ([] : List Char) then new else []
  | c :: r =>
    if pat.isPrefixOf (c :: r) then new ++ (c :: r).drop pat.length
    else c :: listReplaceFirst pat new r

/-- No occurrence of `pat` in `pre ++ pat ++ post` starts strictly
inside `pre` — i.e. the visible occurrence is the first one. -/
def noPatBefore (pat pre post : List Char) : Prop :=
  ∀ i < pre.length, ¬(pat.isPrefixOf ((pre ++ pat ++ post).drop i) = true)

instance (pat pre post : List Char) : Decidable (noPatBefore pat pre post) := by
  unfold noPatBefore; infer_instance

/-- Tail-recursive check that `pat` is not a prefix of any of the first
`k` suffixes of `l` (evaluates in constant stack). -/
def noPatScanB (pat : List Char) : ℕ → List Char → Bool
  | 0, _ => true
  | k + 1, l =>
    match l with
    | [] => true
    | _ :: r => !(pat.isPrefixOf l) && noPatScanB pat k r

theorem noPatScanB_sound (pat : List Char) (hpat : pat ≠ []) :
    ∀ (k : ℕ) (l : List Char), noPatScanB pat k l = true →
      ∀ i < k, ¬(pat.isPrefixOf (l.drop i) = true)
  | 0, l, h, i, hi => by omega
  | k + 1, [], h, i, hi => by
    cases pat with
    | nil => exact absurd rfl hpat
    | cons a as => simp [List.isPrefixOf]
  | k + 1, c :: r, h, i, hi => by
    simp only [noPatScanB, Bool.and_eq_true, Bool.not_eq_true'] at h
    match i with
    | 0 =>
      simp only [List.drop_zero]
      rw [h.1]
      simp
    | j + 1 =>
      simpa using noPatScanB_sound pat hpat k r h.2 j (by omega)

theorem noPatBefore_of_scan (pat pre post : List Char) (hpat : pat ≠ [])
    (h : noPatScanB pat pre.length (pre ++ pat ++ post) = true) :
    noPatBefore pat pre post :=
  fun i hi => noPatScanB_sound pat hpat pre.length (pre ++ pat ++ post) h i hi

/-- `strings.Replace(_, pat, new, 1)` replaces exactly the shown
occurrence when no earlier occurrence exists. -/
theorem listReplaceFirst_spliceAt (pat new pre post : List Char) (hpat : pat ≠ [])
    (h : noPatBefore pat pre post) :
    listReplaceFirst pat new (pre ++ pat ++ post) = pre ++ new ++ post := by
  induction pre with
  | nil =>
    cases pat with
    | nil => exact absurd rfl hpat
    | cons a as =>
      show listReplaceFirst (a :: as) new (a :: (as ++ post)) = new ++ post
      simp only [listReplaceFirst]
      rw [if_pos]
      · show new ++ ((a :: as) ++ post).drop (a :: as).length = new ++ post
        rw [List.drop_left]
      · exact List.isPrefixOf_iff_prefix.mpr (List.prefix_append _ _)
  | cons c pre ih =>
    have h0 := h 0 (by simp)
    simp only [List.drop_zero] at h0
    show listReplaceFirst pat new (c :: (pre ++ pat ++ post)) = c :: (pre ++ new ++ post)
    simp only [listReplaceFirst]
    rw [if_neg (by simpa using h0)]
    congr 1
    apply ih
    intro i hi
    have := h (i + 1) (by simpa using Nat.succ_lt_succ hi)
    simpa using this

/-- The cross-reference anchor `"\nxref\n"`. -/
def xrefPat : List Char := ("\nxref\n").data

/-- The two shared wrap streams (`q` push / `Q` pop), serialized at
ids `nextId` and `nextId + 1` (main.go lines 513–515). -/
def wrapObjsText (nextId : ℤ) : List Char :=
  goItoa nextId ++ (" 0 obj\n<< /Length 1 >> stream\nqendstream\nendobj\n".data) ++
    goItoa (nextId + 1) ++ (" 0 obj\n<< /Length 1 >> stream\nQendstream\nendobj\n".data)

/-- The per-tile content-id rewrite of the wrap block (main.go lines
517–520): push id prepended, pop id appended. -/
def wrapContentIds (nextId : ℤ) (tiles : List page) : List page :=
  tiles.map fun t => { t with contentIds := nextId :: (t.contentIds ++ [nextId + 1]) }

/-- The overlay loop (main.go lines 526–530): one overlay per tile at
consecutive ids, texts concatenated in tile order; returns the built
text, the updated tiles and the advanced id counter. -/
def overlayStage (cfg : Config) : ℤ → List page → List Char × List page × ℤ
  | n, [] => ([], [], n)
  | n, t :: ts =>
    let r1 := createOverlayForPage cfg n t
    let r2 := overlayStage cfg (n + 1) ts
    (r1.1 ++ r2.1, r1.2 :: r2.2.1, r2.2.2)

/-- The id assignment loop of `appendPagesToDoc` (`p.id = pi + startId`
for the `pi`-th page), written as a recursion that advances the id. -/
def assignIds (startId : ℤ) : List page → List page
  | [] => []
  | p :: ps => { p with id := startId } :: assignIds (startId + 1) ps

/-- `appendPagesToDoc` from main.go; also returns the pages with their
assigned ids (Go mutates them through pointers). -/
def appendPagesToDoc (d : List Char) (startId : ℤ) (pages : List page) :
    List Char × List page :=
  let ps := assignIds startId pages
  let b := (ps.map marshal).flatten
  (listReplaceFirst xrefPat (('\n' :: b) ++ ('\n' :: xrefPat)) d, ps)

/-- The reassembly block of `process` (main.go lines 511–534): insert
the wrap objects, then the overlays, then the serialized tile pages,
each immediately before the cross-reference anchor. -/
def reassemble (cfg : Config) (d : List Char) (nextId : ℤ) (tiles : List page) :
    List Char × List page :=
  let objs := wrapObjsText nextId
  let d1 := listReplaceFirst xrefPat (('\n' :: objs) ++ xrefPat) d
  let tiles1 := wrapContentIds nextId tiles
  let r := overlayStage cfg (nextId + 2) tiles1
  let d2 := listReplaceFirst xrefPat (('\n' :: r.1) ++ xrefPat) d1
  appendPagesToDoc d2 r.2.2 r.2.1

/-! ## Page-tree rewriting (`replaceAllDocPagesWith`) -/

/-- At a line start inside the lazy region: `\s+/Count\s+\d+`, returning
the group-1 suffix (whitespace, `/Count`, whitespace) and the remainder
after the digits. -/
def countTail (l : List Char) : Option (List Char × List Char) := do
  let (w1, r) ← many1 isGoSpace l
  let r ← lit ("/Count".data) r
  let (w2, r) ← many1 isGoSpace r
  let (_, r) ← many1 isDigitCh r
  some (w1 ++ ("/Count".data) ++ w2, r)

/-- At a line start inside the lazy region: `\s+/Kids\s+\[`, returning
the group-1 suffix and the remainder after `[`. -/
def kidsTail (l : List Char) : Option (List Char × List Char) := do
  let (w1, r) ← many1 isGoSpace l
  let r ← lit ("/Kids".data) r
  let (w2, r) ← many1 isGoSpace r
  let r ← lit ['['] r
  some (w1 ++ ("/Kids".data) ++ w2 ++ ['['], r)

/-- Lazy `.*?^` scan (with `(?s)` dot): the earliest line start at or
after the current position where `m` matches; returns the skipped
characters and the match. -/
def lazyScanLS {β : Type} (m : List Char → Option β) : Bool → List Char → Option (List Char × β)
  | atStart, [] => if atStart then (m ([] : List Char)).map fun b => (([] : List Char), b) else none
  | atStart, c :: r =>
    match (if atStart then m (c :: r) else none) with
    | some b => some ([], b)
    | none => (lazyScanLS m (c = '\n') r).map fun q => (c :: q.1, q.2)

/-- Anchored matcher for the `/Count` rewrite
`(?ms)^(%d 0 obj\n.*?^\s+/Count\s+)\d+` with template `${1}<count>`:
returns the replacement text and the remainder after the match. -/
def countMatchAt (idLit newCount : List Char) (l : List Char) :
    Option (List Char × List Char) := do
  let r ← lit idLit l
  let (skipped, g) ← lazyScanLS countTail true r
  some (idLit ++ skipped ++ g.1 ++ newCount, g.2)

/-- Anchored matcher for the `/Kids` rewrite
`(?ms)^(%d 0 obj\n.*?^\s+/Kids\s+\[)[^\]]*` with template `${1} <refs> `. -/
def kidsMatchAt (idLit refs : List Char) (l : List Char) :
    Option (List Char × List Char) := do
  let r ← lit idLit l
  let (skipped, g) ← lazyScanLS kidsTail true r
  some (idLit ++ skipped ++ g.1 ++ (' ' :: refs) ++ [' '], (g.2.span (fun c => !(c = ']'))).2)

/-- `ReplaceAllString` driver: rewrite every `(?m)^`-anchored match,
scanning left to right and continuing after each replacement.  (The
matches of the two patterns above end in a digit respectively in
arbitrary bracket content, never at a fresh line start that could host
an immediately adjacent match.) -/
def replaceAllAt (m : List Char → Option (List Char × List Char)) :
    ℕ → Bool → List Char → List Char
  | 0, _, l => l
  | f + 1, atStart, l =>
    match (if atStart then m l else none) with
    | some (rep, rest) => rep ++ replaceAllAt m f false rest
    | none =>
      match l with
      | [] => []
      | c :: r => c :: replaceAllAt m f (c = '\n') r

/-- `replaceAllDocPagesWith` from main.go: rewrite the root page tree's
`/Count` and `/Kids` with the tile pages. -/
def replaceAllDocPagesWith (d : List Char) (pages : List page) (pageTreeId : ℤ) : List Char :=
  let idLit := goItoa pageTreeId ++ (" 0 obj\n".data)
  let refs := (pages.map fun p => goItoa p.id ++ (" 0 R\n".data)).flatten
  let d1 := replaceAllAt (countMatchAt idLit (goItoa pages.length)) (d.length + 1) true d
  replaceAllAt (kidsMatchAt idLit refs) (d1.length + 1) true d1

/-! ## Document-wide anchors and `process` -/

/-- Anchored matcher for `^\s+/Pages\s+(\d+)\s+\d+\s+R`. -/
def pagesAnchorAt (l : List Char) : Option (List Char) := do
  let (_, r) ← many1 isGoSpace l
  let r ← lit ("/Pages".data) r
  let (_, r) ← many1 isGoSpace r
  let (d, r) ← many1 isDigitCh r
  let (_, r) ← many1 isGoSpace r
  let (_, r) ← many1 isDigitCh r
  let (_, r) ← many1 isGoSpace r
  let _ ← lit ['R'] r
  some d

/-- The root page-tree lookup in `process` (main.go line 479). -/
def pagesAnchorFind (d : List Char) : Option (List Char) := findMultiline pagesAnchorAt d

/-- Anchored matcher for `^xref\s+\d+\s+(\d+)`. -/
def xrefHeaderAt (l : List Char) : Option (List Char) := do
  let r ← lit ("xref".data) l
  let (_, r) ← many1 isGoSpace r
  let (_, r) ← many1 isDigitCh r
  let (_, r) ← many1 isGoSpace r
  let (d, _) ← many1 isDigitCh r
  some d

inductive PErr where
  | noRootPageTree
  | noNextFreeId
  | atoiRange
  | panicked
deriving DecidableEq, Repr

/-- `getNextFreeObjectId` from main.go: the second number of the xref
header; its `Atoi` error (range) propagates to the caller. -/
def getNextFreeObjectId (d : List Char) : Except PErr ℤ :=
  match findMultiline xrefHeaderAt d with
  | none => .error .noNextFreeId
  | some ds =>
    match goAtoi ds with
    | none => .error .atoiRange
    | some n => .ok n

/-- Sorting by page number (`sort.Slice` with `number <`; ties between
duplicate page numbers are unspecified there and here). -/
def insertByNum (p : page) : List page → List page
  | [] => [p]
  | q :: r => if p.number ≤ q.number then p :: q :: r else q :: insertByNum p r

def sortByNum (l : List page) : List page := l.foldr insertByNum []

/-- `process` from main.go, from the normalized document text to the
rewritten text that is handed to the optimizing writer (the QPDF
conversions on either side are external I/O).  `.error` models a
non-nil error return of `process` — the run aborts fatally with no
output; `.panicked` additionally models a panic escaping
`extractAttrs`. -/
def process (cfg : Config) (data0 : List Char) : Except PErr (List Char) :=
  match pagesAnchorFind data0 with
  | none => .error .noRootPageTree
  | some pd =>
    let pageTreeId := goAtoiClamped pd
    match getNextFreeObjectId data0 with
    | .error e => .error e
    | .ok nextId =>
      let tileW := cfg.tileSizeW * ptsInInch / mmInInch - (bleedMargin + trimMargin) * 2
      let tileH := cfg.tileSizeH * ptsInInch / mmInInch - (bleedMargin + trimMargin) * 2
      match getAllPages data0 with
      | none => .error .panicked
      | some pages0 =>
        let pages := sortByNum pages0
        let tiles := pages.flatMap fun p =>
          (cutPageToTiles p tileW tileH bleedMargin trimMargin).map fun t =>
            { t with parentId := pageTreeId }
        let r := reassemble cfg data0 nextId tiles
        .ok (replaceAllDocPagesWith r.1 r.2 pageTreeId)

/-! ## Claim C4 -/

instance {ε α : Type} [DecidableEq ε] [DecidableEq α] : DecidableEq (Except ε α) := fun x y =>
  match x, y with
  | .ok a, .ok b =>
    if h : a = b then isTrue (by rw [h])
    else isFalse (by intro hc; injection hc; exact h (by assumption))
  | .error e, .error f =>
    if h : e = f then isTrue (by rw [h])
    else isFalse (by intro hc; injection hc; exact h (by assumption))
  | .ok _, .error _ => isFalse (fun hc => Except.noConfusion hc)
  | .error _, .ok _ => isFalse (fun hc => Except.noConfusion hc)

theorem createOverlayForPage_snd (cfg : Config) (n : ℤ) (t : page) :
    (createOverlayForPage cfg n t).2 = { t with contentIds := t.contentIds ++ [n] } := rfl

theorem overlayStage_counter (cfg : Config) : ∀ (ts : List page) (m : ℤ),
    (overlayStage cfg m ts).2.2 = m + ts.length
  | [], m => by simp [overlayStage]
  | t :: ts, m => by
    simp only [overlayStage]
    rw [overlayStage_counter cfg ts (m + 1)]
    simp only [List.length_cons]
    push_cast
    ring

theorem overlayStage_getElem (cfg : Config) :
    ∀ (ts : List page) (m : ℤ) (i : ℕ) (t : page), ts[i]? = some t →
      (overlayStage cfg m ts).2.1[i]? =
        some { t with contentIds := t.contentIds ++ [m + (i : ℤ)] }
  | [], m, i, t, h => by simp at h
  | t0 :: ts, m, 0, t, h => by
    simp only [List.getElem?_cons_zero, Option.some.injEq] at h
    subst h
    simp only [overlayStage, List.getElem?_cons_zero, createOverlayForPage_snd]
    push_cast
    ring_nf
  | t0 :: ts, m, i + 1, t, h => by
    simp only [List.getElem?_cons_succ] at h
    simp only [overlayStage, List.getElem?_cons_succ]
    rw [overlayStage_getElem cfg ts (m + 1) i t h]
    push_cast
    ring_nf

theorem assignIds_getElem : ∀ (ps : List page) (s : ℤ) (i : ℕ) (p : page), ps[i]? = some p →
    (assignIds s ps)[i]? = some { p with id := (i : ℤ) + s }
  | [], s, i, p, h => by simp at h
  | p0 :: ps, s, 0, p, h => by
    simp only [List.getElem?_cons_zero, Option.some.injEq] at h
    subst h
    simp only [assignIds, List.getElem?_cons_zero]
    push_cast
    ring_nf
  | p0 :: ps, s, i + 1, p, h => by
    simp only [List.getElem?_cons_succ] at h
    simp only [assignIds, List.getElem?_cons_succ]
    rw [assignIds_getElem ps (s + 1) i p h]
    push_cast
    ring_nf

theorem wrapContentIds_getElem (n : ℤ) (ts : List page) (i : ℕ) (t : page)
    (h : ts[i]? = some t) :
    (wrapContentIds n ts)[i]? =
      some { t with contentIds := n :: (t.contentIds ++ [n + 1]) } := by
  unfold wrapContentIds
  rw [List.getElem?_map, h, Option.map_some']

/-- **C4.**  In the reassembly block: the two shared wrap streams take
ids `nextId` and `nextId + 1`; tile `i` gets overlay id `nextId+2+i`
and page-object id `nextId+2+T+i` (`T` the number of tiles); its final
content list is `[pushId] ++ original ++ [popId, overlayId]` (overlay
appended, not prepended); the id counter after the overlay loop is
`nextId+2+T`; and the three insertions land in the document, in
allocation order — wraps, then overlays, then pages — immediately
before the cross-reference anchor. -/
theorem reassemble_allocation_order :
    (∀ (cfg : Config) (d : List Char) (n : ℤ) (ts : List page) (i : ℕ) (t0 : page),
        ts[i]? = some t0 →
        ((reassemble cfg d n ts).2)[i]? =
          some { t0 with
                 contentIds := [n] ++ t0.contentIds ++ [n + 1, n + 2 + (i : ℤ)],
                 id := (i : ℤ) + (n + 2 + (ts.length : ℤ)) }) ∧
      (∀ (cfg : Config) (n : ℤ) (ts : List page),
        (overlayStage cfg (n + 2) (wrapContentIds n ts)).2.2 = n + 2 + (ts.length : ℤ)) ∧
      (∀ (cfg : Config) (n : ℤ) (ts : List page) (pre post : List Char),
        noPatBefore xrefPat pre post →
        noPatBefore xrefPat (pre ++ '\n' :: wrapObjsText n) post →
        noPatBefore xrefPat
          (pre ++ '\n' :: wrapObjsText n ++
            '\n' :: (overlayStage cfg (n + 2) (wrapContentIds n ts)).1) post →
        (reassemble cfg (pre ++ xrefPat ++ post) n ts).1 =
          pre ++ '\n' :: wrapObjsText n ++
            '\n' :: (overlayStage cfg (n + 2) (wrapContentIds n ts)).1 ++
            '\n' :: ((assignIds (n + 2 + (ts.length : ℤ))
                (overlayStage cfg (n + 2) (wrapContentIds n ts)).2.1).map marshal).flatten ++
            '\n' :: xrefPat ++ post) := by
  have hcnt : ∀ (cfg : Config) (n : ℤ) (ts : List page),
      (overlayStage cfg (n + 2) (wrapContentIds n ts)).2.2 = n + 2 + (ts.length : ℤ) := by
    intro cfg n ts
    rw [overlayStage_counter]
    unfold wrapContentIds
    rw [List.length_map]
  refine ⟨?_, hcnt, ?_⟩
  · intro cfg d n ts i t0 h
    show (assignIds (overlayStage cfg (n + 2) (wrapContentIds n ts)).2.2
        (overlayStage cfg (n + 2) (wrapContentIds n ts)).2.1)[i]? = _
    have h1 := wrapContentIds_getElem n ts i t0 h
    have h2 := overlayStage_getElem cfg (wrapContentIds n ts) (n + 2) i _ h1
    rw [assignIds_getElem _ _ i _ h2, hcnt]
    congr 2
    simp

  · intro cfg n ts pre post h1 h2 h3
    have hne : xrefPat ≠ [] := by decide
    dsimp only [reassemble, appendPagesToDoc]
    rw [hcnt]
    rw [listReplaceFirst_spliceAt xrefPat ('\n' :: wrapObjsText n ++ xrefPat) pre post hne h1]
    have e1 : pre ++ ('\n' :: wrapObjsText n ++ xrefPat) ++ post =
        (pre ++ '\n' :: wrapObjsText n) ++ xrefPat ++ post := by
      simp [List.append_assoc]
    rw [e1]
    rw [listReplaceFirst_spliceAt xrefPat
      ('\n' :: (overlayStage cfg (n + 2) (wrapContentIds n ts)).1 ++ xrefPat)
      (pre ++ '\n' :: wrapObjsText n) post hne h2]
    have e2 : (pre ++ '\n' :: wrapObjsText n) ++
        ('\n' :: (overlayStage cfg (n + 2) (wrapContentIds n ts)).1 ++ xrefPat) ++ post =
        (pre ++ '\n' :: wrapObjsText n ++
          '\n' :: (overlayStage cfg (n + 2) (wrapContentIds n ts)).1) ++ xrefPat ++ post := by
      simp [List.append_assoc]
    rw [e2]
    rw [listReplaceFirst_spliceAt xrefPat
      ('\n' :: ((assignIds (n + 2 + (ts.length : ℤ))
          (overlayStage cfg (n + 2) (wrapContentIds n ts)).2.1).map marshal).flatten ++
        '\n' :: xrefPat)
      (pre ++ '\n' :: wrapObjsText n ++
        '\n' :: (overlayStage cfg (n + 2) (wrapContentIds n ts)).1) post hne h3]
    simp [List.append_assoc]

/-- Shared flag configuration for concrete scenarios (defaults: corner
trim marks, logo shown, title "T", A4 tile size). -/
def cfg0 : Config :=
  { longTrimMarks := false, hideLogo := false, tileTitle := ("T").data,
    tileSizeW := 210, tileSizeH := 297 }

/-- A minimal concrete tile page for the C4 witness. -/
def pgW : page := { number := 1 }

/-- **C4 witness**: a one-tile reassembly starting at id 5 into the
document `"A\nxref\nB"`: the tile ends with content list
`[5] ++ [] ++ [6, 7]` and page id 8, and the document text is spliced
in allocation order before the anchor. -/
theorem reassemble_allocation_order_witness :
    ((reassemble cfg0 (("A").data ++ xrefPat ++ ("B").data) 5 [pgW]).2)[0]? =
        some { pgW with
               contentIds := [5] ++ pgW.contentIds ++ [5 + 1, 5 + 2 + ((0 : ℕ) : ℤ)],
               id := ((0 : ℕ) : ℤ) + (5 + 2 + (([pgW] : List page).length : ℤ)) } ∧
      (reassemble cfg0 (("A").data ++ xrefPat ++ ("B").data) 5 [pgW]).1 =
        ("A").data ++ '\n' :: wrapObjsText 5 ++
          '\n' :: (overlayStage cfg0 (5 + 2) (wrapContentIds 5 [pgW])).1 ++
          '\n' :: ((assignIds (5 + 2 + (([pgW] : List page).length : ℤ))
              (overlayStage cfg0 (5 + 2) (wrapContentIds 5 [pgW])).2.1).map marshal).flatten ++
          '\n' :: xrefPat ++ ("B").data := by
  constructor
  · exact reassemble_allocation_order.1 cfg0 (("A").data ++ xrefPat ++ ("B").data) 5 [pgW] 0 pgW
      rfl
  · exact reassemble_allocation_order.2.2 cfg0 5 [pgW] (("A").data) (("B").data)
      (noPatBefore_of_scan _ _ _ (by decide) (by decide))
      (noPatBefore_of_scan _ _ _ (by decide) (by decide))
      (noPatBefore_of_scan _ _ _ (by decide) (by decide))

/-! ## Claim C5 -/

/-- A document whose root page-tree reference and xref header both
match, but which contains no `"\nxref\n"` insertion marker (the header
line is `"xref 0 7"` on one line). -/
def D5 : List Char := ("junk\n  /Pages 1 0 R\nxref 0 7\n").data

/-- **C5 counterexample.**  The cross-reference insertion marker is a
required anchor per the claim, yet its absence is not fatal: on `D5`
both checked lookups succeed, `"\nxref\n"` occurs nowhere, and the run
completes successfully — returning the document completely unmodified
(every insertion `strings.Replace` silently matched nothing). -/
theorem missing_xref_marker_not_fatal :
    pagesAnchorFind D5 = some ['1'] ∧
      getNextFreeObjectId D5 = .ok 7 ∧
      noPatScanB xrefPat D5.length D5 = true ∧
      process cfg0 D5 = .ok D5 := by
  decide

/-- **C5 (amended).**  The two anchor lookups that are checked — the
root page-tree reference and the next-free-id (xref header) lookup —
are fatal when they fail: `process` returns an error and no rewritten
document is produced.  The insertion-point marker, by contrast, is
never checked (see the counterexample): a missing `"\nxref\n"` makes
the insertions silent no-ops. -/
theorem anchor_lookup_failures_fatal :
    (∀ (cfg : Config) (d : List Char), pagesAnchorFind d = none →
        process cfg d = .error .noRootPageTree) ∧
      (∀ (cfg : Config) (d : List Char) (ds : List Char) (e : PErr),
        pagesAnchorFind d = some ds → getNextFreeObjectId d = .error e →
        process cfg d = .error e) := by
  constructor
  · intro cfg d h
    unfold process
    rw [h]
  · intro cfg d ds e h1 h2
    unfold process
    rw [h1, h2]

/-- A document with no `/Pages` reference at all. -/
def D5a : List Char := ("hello\n").data

/-- A document with a `/Pages` reference but no xref header line. -/
def D5b : List Char := ("  /Pages 1 0 R\n").data

/-- **C5 witness**: both checked anchors abort the run fatally on
concrete documents. -/
theorem anchor_lookup_failures_fatal_witness :
    process cfg0 D5a = .error .noRootPageTree ∧
      process cfg0 D5b = .error .noNextFreeId := by
  constructor
  · exact anchor_lookup_failures_fatal.1 cfg0 D5a (by decide)
  · exact anchor_lookup_failures_fatal.2 cfg0 D5b ['1'] .noNextFreeId (by decide) (by decide)

/-! ## Claim C6 -/

/-- A page body lacking a `/MediaBox` whose `/Contents` id overflows
the host int. -/
def body6 : List Char := ("  /Contents 99999999999999999999 0 R\n").data

/-- **C6 counterexample.**  A page body that lacks a `/MediaBox`, for
which extraction does not return an error: the contents id
`99999999999999999999` overflows `strconv.Atoi`, so the `atoi` helper
panics before the media-box check is reached, aborting the whole run
instead of skipping the page. -/
theorem extract_panics_on_overflowing_contents_id :
    boxFind ("MediaBox".data) body6 = none ∧ extractAttrs 1 body6 = .panicked := by
  decide

/-- The one-page document of the spec scenario, whose page object has
no media box. -/
def D6 : List Char :=
  ("%% Page 1\n%%\n3 0 obj\n<<\n  /Contents 4 0 R\n>>\nendobj\n  /Pages 1 0 R\n\nxref\n0 7\n").data

/-- The captured body of `D6`'s page object. -/
def D6body : List Char := ("  /Contents 4 0 R").data

/-- **C6 (amended).**  Provided the matched numeric substrings convert
(no panic): a body with no content reference errors with `noContents`;
a body with a convertible content reference but no media box errors
with `noMediaBox`; every successfully extracted page has four
rectangle-valid boxes; a page whose extraction errors is skipped while
processing continues with the remaining pages; and the spec scenario —
a document whose one page lacks a media box — yields zero extracted
pages, a `noMediaBox` extraction error, and a run that still completes
without a fatal error. -/
theorem malformed_page_skipped :
    (∀ (n : ℤ) (raw : List Char), contentsFind raw = none →
        extractAttrs n raw = .err .noContents) ∧
      (∀ (n : ℤ) (raw : List Char) (cm : ContentsMatch) (cids : List ℤ),
        contentsFind raw = some cm → contentIdsOf cm = some cids →
        boxFind ("MediaBox".data) raw = none → extractAttrs n raw = .err .noMediaBox) ∧
      (∀ (n : ℤ) (raw : List Char) (p : page), extractAttrs n raw = .ok p →
        p.mediaBox.isValid = true ∧ p.cropBox.isValid = true ∧
          p.bleedBox.isValid = true ∧ p.trimBox.isValid = true) ∧
      (∀ (num body : List Char) (ms : List (List Char × List Char)) (e : ExtractErr),
        extractAttrs (goAtoiClamped num) body = .err e →
        getAllPagesAux ((num, body) :: ms) = getAllPagesAux ms) ∧
      (extractAttrs 1 D6body = .err .noMediaBox ∧ getAllPages D6 = some [] ∧
        (process cfg0 D6).isOk = true) := by
  refine ⟨?_, ?_, ?_, ?_, by decide⟩
  · intro n raw h
    unfold extractAttrs
    rw [h]
  · intro n raw cm cids h1 h2 h3
    unfold extractAttrs
    rw [h1]
    simp only []
    rw [h2]
    simp only []
    rw [h3]
  · intro n raw p h
    obtain ⟨cm, cids, c, mb, cb, bb, tbx, hcm, hcids, hc, hmb, hvm, hcb, hvc, hbb, hvb,
      htb, hvt, hp⟩ := extractAttrs_ok_elim h
    subst hp
    exact ⟨hvm, hvc, hvb, hvt⟩
  · intro num body ms e h
    simp only [getAllPagesAux, h]

/-- **C6 witness**: the `noMediaBox` error on the scenario body, and
the skip-and-continue behaviour on a two-page match list whose first
page is the malformed one. -/
theorem malformed_page_skipped_witness :
    extractAttrs 1 D6body = .err .noMediaBox ∧
      getAllPagesAux [(['1'], D6body), (['2'], body9a)] = getAllPagesAux [(['2'], body9a)] := by
  constructor
  · exact malformed_page_skipped.2.1 1 D6body (ContentsMatch.single ['4']) [4]
      (by decide) (by decide) (by decide)
  · exact malformed_page_skipped.2.2.2.1 ['1'] D6body [(['2'], body9a)] .noMediaBox (by decide)

/-! ## Claim C7 (`TileSizeFlag.Set`) -/

inductive SizeUnit where
  | mm
  | cm
  | inch
  | pt
deriving DecidableEq, Repr

/-- The `unitsToMillimeter` map from `Set`. -/
def unitToMm : SizeUnit → ℚ
  | .mm => 1
  | .cm => mmInCm
  | .inch => mmInInch
  | .pt => mmInInch / ptsInInch

/-- `\d+(?:\.\d+)?` with its exact rational value and matched text.
(`ParseFloat(..., 32)` never fails on this shape; its float32 rounding
is immaterial here and the value is kept exact.) -/
def decNumTok (l : List Char) : Option (ℚ × List Char × List Char) :=
  match many1 isDigitCh l with
  | none => none
  | some (a, r) =>
    match r with
    | '.' :: r2 =>
      match many1 isDigitCh r2 with
      | some (b, r3) =>
        some (((decVal (a ++ b) : ℕ) : ℚ) / (10 ^ b.length : ℚ), a ++ '.' :: b, r3)
      | none => some (((decVal a : ℕ) : ℚ), a, r)
    | _ => some (((decVal a : ℕ) : ℚ), a, r)

/-- `(mm|cm|in|pt)`, in Go's alternation order. -/
def unitTok (l : List Char) : Option (SizeUnit × List Char × List Char) :=
  ((lit ("mm".data) l).map fun r => (SizeUnit.mm, ("mm".data), r)) <|>
    ((lit ("cm".data) l).map fun r => (SizeUnit.cm, ("cm".data), r)) <|>
    ((lit ("in".data) l).map fun r => (SizeUnit.inch, ("in".data), r)) <|>
    ((lit ("pt".data) l).map fun r => (SizeUnit.pt, ("pt".data), r))

/-- The `dimRe` branch of `Set`:
`^\s*(\d+(?:\.\d+)?)\s*(mm|cm|in|pt)\s*x\s*(\d+(?:\.\d+)?)\s*(mm|cm|in|pt)\s*$`,
yielding the reconstructed name `parts[1]+parts[2]+"x"+parts[3]+parts[4]`
and width/height in millimeters. -/
def parseDimSize (s : List Char) : Option (List Char × ℚ × ℚ) := do
  let r := (s.span isGoSpace).2
  let (wv, wtxt, r) ← decNumTok r
  let r := (r.span isGoSpace).2
  let (wu, wutxt, r) ← unitTok r
  let r := (r.span isGoSpace).2
  let r ← lit ['x'] r
  let r := (r.span isGoSpace).2
  let (hv, htxt, r) ← decNumTok r
  let r := (r.span isGoSpace).2
  let (hu, hutxt, r) ← unitTok r
  let r := (r.span isGoSpace).2
  if r = [] then
    some (wtxt ++ wutxt ++ ('x' :: htxt) ++ hutxt, wv * unitToMm wu, hv * unitToMm hu)
  else none

/-- Modelled from the spec: `papersizes.FromName` of the external
papersizes library (a separate repository): a lookup of standard named
paper sizes with dimensions in millimeters, `none` for anything that is
not a known size name. -/
def papersizesFromName (s : List Char) : Option (List Char × ℚ × ℚ) :=
  if s = ("A3".data) then some (("A3".data), 297, 420)
  else if s = ("A4".data) then some (("A4".data), 210, 297)
  else if s = ("A5".data) then some (("A5".data), 148, 210)
  else if s = ("Letter".data) then some (("Letter".data), 215.9, 279.4)
  else none

/-- The `TileSizeFlag` value (width/height in millimeters). -/
structure TileSizeFlag where
  name : List Char
  width : ℚ
  height : ℚ
  isDim : Bool
deriving DecidableEq, Repr

inductive SetErr where
  | invalidTileSize
  | belowMinimum
deriving DecidableEq, Repr

/-- The parsing phase of `Set`: the named-size lookup, falling back to
the dimension syntax. -/
def parseTileSize (s : List Char) : Option TileSizeFlag :=
  match papersizesFromName s with
  | some q => some { name := q.1, width := q.2.1, height := q.2.2, isDim := false }
  | none =>
    match parseDimSize s with
    | none => none
    | some q => some { name := q.1, width := q.2.1, height := q.2.2, isDim := true }

/-- `(*TileSizeFlag).Set` from main.go: parse, then reject any value
with `width < minPageDimension || height < minPageDimension`. -/
def tileSizeSet (s : List Char) : Except SetErr TileSizeFlag :=
  match parseTileSize s with
  | none => .error .invalidTileSize
  | some v =>
    if v.width < minPageDimension ∨ v.height < minPageDimension then .error .belowMinimum
    else .ok v

/-- **C7 counterexample.**  `145 pt` is exactly the floor
`2·(bleedMargin+trimMargin+trimMarkLineWidth)` (= 3683/72 mm), so the
tile size `"145pt x 145pt"` does not exceed the floor in either
dimension — yet `Set` accepts it, because the check is strict `<`. -/
theorem tile_size_floor_equality_accepted :
    minPageDimension = 3683 / 72 ∧
      tileSizeSet (("145pt x 145pt").data) =
        .ok { name := ("145ptx145pt").data, width := minPageDimension,
              height := minPageDimension, isDim := true } ∧
      ¬minPageDimension > minPageDimension :=
  ⟨by decide, by decide, lt_irrefl _⟩

/-- **C7 (amended).**  `Set` rejects every specification that parses to
a width or height strictly below
`2 × (bleedMargin + trimMargin + trimMarkLineWidth)` in millimeters,
before any page is processed; every accepted configuration has
dimensions at or above that floor (equality is accepted — see the
counterexample — so "strictly above" does not hold). -/
theorem tile_size_min_floor :
    (∀ (s : List Char) (v : TileSizeFlag), tileSizeSet s = .ok v →
        minPageDimension ≤ v.width ∧ minPageDimension ≤ v.height) ∧
      (∀ (s : List Char) (v : TileSizeFlag), parseTileSize s = some v →
        v.width < minPageDimension ∨ v.height < minPageDimension →
        tileSizeSet s = .error .belowMinimum) := by
  constructor
  · intro s v h
    unfold tileSizeSet at h
    cases hp : parseTileSize s with
    | none => rw [hp] at h; exact absurd h (by simp)
    | some u =>
      rw [hp] at h
      simp only [] at h
      split at h
      · exact absurd h (by simp)
      next hcond =>
        push_neg at hcond
        cases h
        exact hcond
  · intro s v hp hlt
    unfold tileSizeSet
    rw [hp]
    simp only []
    rw [if_pos hlt]

/-- **C7 witness**: the floor bounds on the accepted `A4` size, and the
rejection of a `10mm x 10mm` tile, via the amended statement. -/
theorem tile_size_min_floor_witness :
    (minPageDimension ≤
        ({ name := ("A4").data, width := 210, height := 297, isDim := false } :
          TileSizeFlag).width ∧
      minPageDimension ≤
        ({ name := ("A4").data, width := 210, height := 297, isDim := false } :
          TileSizeFlag).height) ∧
      tileSizeSet (("10mm x 10mm").data) = .error .belowMinimum := by
  constructor
  · exact tile_size_min_floor.1 (("A4").data) _ (by decide)
  · exact tile_size_min_floor.2 (("10mm x 10mm").data)
      { name := ("10mmx10mm").data, width := 10, height := 10, isDim := true }
      (by decide) (by decide)

end PdfTileCut
